import Mathlib

/-!
Shallow embedding of the `configurator` Go library: the reflection-driven
value model, the environment provider (`provider_env`), the default
provider (`provider_default.go`), the secrets provider
(`provider_secrets.go`), the validator (`validator`), and the provider
pipeline (`Configurator.Load`), together with theorems checking the
natural-language specification against these definitions.
-/

namespace Configurator

/-- Bit widths of Go's sized integer kinds. `wNative` stands for the
platform-sized `int`/`uint` kind, which is a distinct `reflect.Kind`
from `int64`/`uint64` even though it is 64 bits wide on this target. -/
inductive Width where
  | w8 | w16 | w32 | w64 | wNative
deriving DecidableEq, Repr

/-- Number of bits of a width. -/
def Width.bits : Width → Nat
  | .w8 => 8
  | .w16 => 16
  | .w32 => 32
  | .w64 => 64
  | .wNative => 64

/-- Metadata of one Go struct field: declared name, the `env` and
`validate` struct tags (empty string when absent, as `StructTag.Get`
returns), and whether the field is exported (which is what
`reflect.Value.CanSet` reports for a field of an addressable struct). -/
structure FieldDecl where
  name : String
  envTag : String
  validateTag : String
  exported : Bool
deriving DecidableEq, Repr

mutual
/-- Go values of the kinds the configurator manipulates: strings, sized
signed and unsigned integers, booleans, `[]string` slices, structs and
pointers. A pointer value carries the zero value of its element type
(exactly what `reflect.New(t.Elem())` would allocate), mirroring the
static type information `reflect` keeps, together with its current
pointee (`Pointee.nil` models a Go nil pointer). Floating-point kinds
and the `time.Duration` special case are outside this model; no claim
depends on them. -/
inductive Value where
  | strV (s : String)
  | intV (w : Width) (v : Int)
  | uintV (w : Width) (v : Nat)
  | boolV (b : Bool)
  | strSliceV (xs : List String)
  | structV (fields : Fields)
  | ptrV (zeroElem : Value) (pointee : Pointee)

/-- Ordered list of the fields of a struct value: each entry is the
field declaration together with the field current value. -/
inductive Fields where
  | nil
  | cons (d : FieldDecl) (v : Value) (rest : Fields)

/-- Pointee of a pointer value; `nil` models a Go nil pointer. -/
inductive Pointee where
  | nil
  | box (v : Value)
end

/-- The `reflect.Kind` of a value, at the granularity the source
compares kinds (`field.Kind() != val.Kind()` in `setFieldValue`):
sized integer kinds are pairwise distinct. -/
inductive GoKind where
  | strK
  | intK (w : Width)
  | uintK (w : Width)
  | boolK
  | sliceK
  | structK
  | ptrK
deriving DecidableEq, Repr

/-- Kind of a value. -/
def Value.kind : Value → GoKind
  | .strV _ => .strK
  | .intV w _ => .intK w
  | .uintV w _ => .uintK w
  | .boolV _ => .boolK
  | .strSliceV _ => .sliceK
  | .structV _ => .structK
  | .ptrV _ _ => .ptrK

/-- Errors of the library, one constructor per `errors.New`/`fmt.Errorf`
site that the embedded functions can produce. -/
inductive GoErr where
  | invalidConfig
  | fieldNotFound
  | fieldNotSettable
  | incompatibleType
  | parseFailure (s : String)
  | overflowI (v : Int)
  | overflowU (u : Nat)
  | unsupportedType
  | envApply (varName : String) (e : GoErr)
  | gfExpectedStruct
  | gfNotFound (part : String) (idx : Nat) (path : String)
  | gfNil (part : String) (idx : Nat) (path : String)
  | gfNotStruct (part : String) (idx : Nat) (path : String)
  | gfInvalidPath (path : String)
  | readSecret (file : String) (e : GoErr)
  | nilConfig
  | valErr (e : GoErr)
  | valFailed (path : String) (e : GoErr)
  | badRule (path : String) (what : String)
  | ruleRequired
  | ruleLtMin (v : Int) (m : Int)
  | ruleLtMinU (u : Nat) (m : Int)
  | ruleGtMaxI (v : Int) (m : Int)
  | ruleGtMaxU (u : Nat) (m : Int)
  | ruleNotNumeric
  | lenLtMin (len : Nat) (m : Int)
  | lenGtMax (len : Nat) (m : Int)
  | ruleNoMinSupport
  | ruleNoMaxSupport
  | other (s : String)
deriving DecidableEq, Repr

/-- Whether `reflect.OverflowInt` reports that the 64-bit signed value
`v` cannot be represented in a signed field of width `w`. -/
def overflowInt (w : Width) (v : Int) : Bool :=
  v < -(2 ^ (w.bits - 1)) || v > 2 ^ (w.bits - 1) - 1

/-- Whether `reflect.OverflowUint` reports that the 64-bit unsigned
value `u` cannot be represented in an unsigned field of width `w`. -/
def overflowUint (w : Width) (u : Nat) : Bool :=
  u ≥ 2 ^ w.bits

/-- Go conversion `uint64(x)` of a signed 64-bit value: two's-complement
wraparound. -/
def natCast64 (x : Int) : Nat :=
  (x % (2 : Int) ^ 64).toNat

/-- Go conversion `int64(u)` of an unsigned 64-bit value:
two's-complement wraparound. -/
def intCast64 (u : Nat) : Int :=
  if u < 2 ^ 63 then (u : Int) else (u : Int) - 2 ^ 64

/-- Digit string to number: `none` unless the string is nonempty and all
decimal digits, mirroring the digit loop of Go `strconv.ParseUint`
with base 10. -/
def decDigits? (cs : List Char) : Option Nat :=
  if cs.isEmpty then none
  else if cs.all Char.isDigit then
    some (cs.foldl (fun a c => a * 10 + (c.toNat - '0'.toNat)) 0)
  else none

/-- Model of Go `strconv.ParseInt(s, 10, 64)`: optional sign, decimal
digits, result range-checked against `int64`. `none` models a
returned error. -/
def parseInt64 (s : String) : Option Int :=
  match s.data with
  | [] => none
  | c :: rest =>
    let signDigits : Bool × List Char :=
      if c = '-' then (true, rest)
      else if c = '+' then (false, rest)
      else (false, c :: rest)
    match decDigits? signDigits.2 with
    | none => none
    | some n =>
      let v : Int := if signDigits.1 then -(n : Int) else (n : Int)
      if v < -(2 ^ 63) || v > 2 ^ 63 - 1 then none else some v

/-- Model of Go `strconv.ParseUint(s, 10, 64)`: decimal digits only (no
sign accepted), range-checked against `uint64`. -/
def parseUint64 (s : String) : Option Nat :=
  match decDigits? s.data with
  | none => none
  | some n => if n ≥ 2 ^ 64 then none else some n

/-- Model of Go `strconv.ParseBool`. -/
def parseGoBool (s : String) : Option Bool :=
  if s = "1" || s = "t" || s = "T" || s = "TRUE" || s = "true" || s = "True" then some true
  else if s = "0" || s = "f" || s = "F" || s = "FALSE" || s = "false" || s = "False" then some false
  else none

/-- ASCII uppercase of one character; with it, `toUpperStr` models
`strings.ToUpper` on the ASCII field names and tags this library
handles. -/
def upChar (c : Char) : Char :=
  if 'a' ≤ c ∧ c ≤ 'z' then Char.ofNat (c.toNat - 32) else c

/-- Model of `strings.ToUpper` (ASCII fragment). -/
def toUpperStr (s : String) : String :=
  String.mk (s.data.map upChar)

/-- ASCII lowercase of one character. -/
def downChar (c : Char) : Char :=
  if 'A' ≤ c ∧ c ≤ 'Z' then Char.ofNat (c.toNat + 32) else c

/-- Model of `strings.ToLower` (ASCII fragment). -/
def toLowerStr (s : String) : String :=
  String.mk (s.data.map downChar)

/-- ASCII whitespace, the fragment of `unicode.IsSpace` relevant here. -/
def isSpaceChar (c : Char) : Bool :=
  c = ' ' || c = '\t' || c = '\n' || c = '\r' || c = '\x0b' || c = '\x0c'

/-- Model of `strings.TrimSpace` (ASCII fragment). -/
def trimStr (s : String) : String :=
  String.mk (((s.data.dropWhile isSpaceChar).reverse.dropWhile isSpaceChar).reverse)

/-- Split a character list at every occurrence of `sep`. -/
def splitChar (sep : Char) : List Char → List (List Char)
  | [] => [[]]
  | c :: cs =>
    let r := splitChar sep cs
    if c = sep then [] :: r
    else
      match r with
      | [] => [[c]]
      | g :: gs => (c :: g) :: gs

/-- Model of `strings.Split(s, sep)` for a one-character separator (the
only separators the source uses: `","`, `"."`, `"_"`, `"-"`, `":"`). -/
def splitOnStr (sep : Char) (s : String) : List String :=
  (splitChar sep s.data).map String.mk

/-- Model of `strings.Join(parts, ".")`. -/
def joinDots : List String → String
  | [] => ""
  | [s] => s
  | s :: rest => s ++ "." ++ joinDots rest

/-- Comma-separated list handling of `applyValueToField`'s slice case:
split on commas, trim whitespace, drop elements that are empty after
trimming, preserving order. -/
def splitTrimDrop (value : String) : List String :=
  ((splitOnStr ',' value).map trimStr).filter (fun s => s ≠ "")


/-- Model of `applyValueToField` (part_000): coerce the raw string
`value` into a field currently holding `field`, returning the new
field value, or an error with the field untouched. The
`time.Duration` branch of the integer case and the float case are
outside the value model; a slice case with non-string elements (which
the source silently ignores) cannot arise since slice values are
`[]string`. -/
def applyValueToField (field : Value) (value : String) : Except GoErr Value :=
  match field with
  | .strV _ => .ok (.strV value)
  | .intV w _ =>
    match parseInt64 value with
    | none => .error (.parseFailure value)
    | some i =>
      if overflowInt w i then .error (.overflowI i) else .ok (.intV w i)
  | .uintV w _ =>
    match parseUint64 value with
    | none => .error (.parseFailure value)
    | some u =>
      if overflowUint w u then .error (.overflowU u) else .ok (.uintV w u)
  | .boolV _ =>
    match parseGoBool value with
    | none => .error (.parseFailure value)
    | some b => .ok (.boolV b)
  | .strSliceV _ => .ok (.strSliceV (splitTrimDrop value))
  | .structV _ => .error .unsupportedType
  | .ptrV _ _ => .error .unsupportedType

/-- Model of `processStruct` (part_000): walk the fields of a struct in
declaration order. Unexported fields are skipped. A struct field is
recursed into; a nil pointer field whose element type is a struct is
filled with a freshly allocated zero value which is then recursed
into; a non-nil pointer to struct is recursed into; other pointer
fields are skipped. For the remaining (scalar or slice) fields the
environment variable `pre ++ "_" ++ upper(env tag or field name)` is
consulted (note the `parent`-derived `path` is computed exactly as in
the source and passed down, but never enters the variable name);
an empty value leaves the field alone, otherwise the value is coerced
into the field and any coercion error aborts the walk, wrapped with
the variable name. `env` stands for `os.Getenv`. -/
def processStruct (env : String → String) (pre : String) :
    String → Fields → Except GoErr Fields
  | _, .nil => .ok .nil
  | parent, .cons d v rest =>
    if d.exported then
      let envTag := if d.envTag ≠ "" then d.envTag else d.name
      let path := if parent ≠ "" then parent ++ "_" ++ d.name else d.name
      match v with
      | .structV fs =>
        match processStruct env pre path fs with
        | .error e => .error e
        | .ok fs' =>
          match processStruct env pre parent rest with
          | .error e => .error e
          | .ok rest' => .ok (.cons d (.structV fs') rest')
      | .ptrV z po =>
        match z, po with
        | .structV zfs, .nil =>
          match processStruct env pre path zfs with
          | .error e => .error e
          | .ok zfs' =>
            match processStruct env pre parent rest with
            | .error e => .error e
            | .ok rest' => .ok (.cons d (.ptrV z (.box (.structV zfs'))) rest')
        | .structV zz, .box (.structV pfs) =>
          match processStruct env pre path pfs with
          | .error e => .error e
          | .ok pfs' =>
            match processStruct env pre parent rest with
            | .error e => .error e
            | .ok rest' => .ok (.cons d (.ptrV (.structV zz) (.box (.structV pfs'))) rest')
        | _, _ =>
          match processStruct env pre parent rest with
          | .error e => .error e
          | .ok rest' => .ok (.cons d (.ptrV z po) rest')
      | _ =>
        let envVarName := if pre ≠ "" then pre ++ "_" ++ toUpperStr envTag else toUpperStr envTag
        let envValue := env envVarName
        if envValue = "" then
          match processStruct env pre parent rest with
          | .error e => .error e
          | .ok rest' => .ok (.cons d v rest')
        else
          match applyValueToField v envValue with
          | .error e => .error (.envApply envVarName e)
          | .ok v' =>
            match processStruct env pre parent rest with
            | .error e => .error e
            | .ok rest' => .ok (.cons d v' rest')
    else
      match processStruct env pre parent rest with
      | .error e => .error e
      | .ok rest' => .ok (.cons d v rest')
termination_by structural _ fs => fs

/-- Whether a top-level configuration value is a non-nil pointer to a
struct, the check `v.Kind() == reflect.Ptr && v.Elem().Kind() ==
reflect.Struct` every entry point performs (`reflect.Value.Elem` of a
nil pointer has kind `Invalid`, so a nil pointer fails the check). -/
def isPtrToStruct : Value → Bool
  | .ptrV _ (.box (.structV _)) => true
  | _ => false

/-- Model of `applyEnvVariables` / `EnvProvider.Load` (part_000). -/
def applyEnvVariables (env : String → String) (cfg : Value) (pre : String) :
    Value × Option GoErr :=
  match cfg with
  | .ptrV z (.box (.structV fs)) =>
    match processStruct env pre "" fs with
    | .error e => (cfg, some e)
    | .ok fs' => (.ptrV z (.box (.structV fs')), none)
  | _ => (cfg, some .invalidConfig)

def dServer : FieldDecl := { name := "Server", envTag := "", validateTag := "", exported := true }
def dPort : FieldDecl := { name := "Port", envTag := "", validateTag := "", exported := true }
def serverPortFields (pv : Int) : Fields :=
  .cons dServer (.structV (.cons dPort (.intV .wNative pv) .nil)) .nil
def envOnly (n v : String) : String → String := fun m => if m = n then v else ""


/-- Model of `reflect.Value.FieldByName` on a struct value: first field
with the given declared name. -/
def findField : Fields → String → Option (FieldDecl × Value)
  | .nil, _ => none
  | .cons d v rest, n => if d.name = n then some (d, v) else findField rest n

/-- Model of `getFieldByPath` (provider_default.go), one path segment at
a time. The boolean threads `reflect.Value.CanSet` of the handle:
true while every traversed field is exported (the configuration
value itself is addressable). The final `[]` equation mirrors the
"should never happen" return after the loop. -/
def getFieldByPathParts : Fields → Bool → List String → Except GoErr (Value × Bool)
  | _, _, [] => .error .fieldNotFound
  | fields, canSet, part :: rest =>
    match findField fields part with
    | none => .error .fieldNotFound
    | some (d, v) =>
      let cs := canSet && d.exported
      if rest.isEmpty then .ok (v, cs)
      else
        match v with
        | .ptrV _ .nil => .error .fieldNotFound
        | .ptrV _ (.box (.structV gs)) => getFieldByPathParts gs cs rest
        | .ptrV _ (.box _) => .error .fieldNotFound
        | .structV gs => getFieldByPathParts gs cs rest
        | _ => .error .fieldNotFound

/-- Model of `getFieldByPath(structValue, path)`: split the dotted path
and walk. Intermediate nil pointers are an error, not materialized. -/
def getFieldByPath (fields : Fields) (path : String) : Except GoErr (Value × Bool) :=
  getFieldByPathParts fields true (splitOnStr '.' path)

/-- Model of `isZeroValue` (provider_default.go). The default branch of
the Go switch (structs among others) answers false. -/
def isZeroValue : Value → Bool
  | .boolV b => !b
  | .intV _ v => v == 0
  | .uintV _ u => u == 0
  | .strV s => s == ""
  | .ptrV _ .nil => true
  | .ptrV _ (.box _) => false
  | .strSliceV xs => xs.isEmpty
  | .structV _ => false

/-- Model of `convertFromString` (provider_default.go): string-to-field
conversion used by the default and secrets providers; `none` models
the Go function returning false with the field untouched. String
and slice destination kinds are not handled there and fall through
to false. -/
def convertFromString (field : Value) (strValue : String) : Option Value :=
  match field with
  | .boolV _ =>
    match parseGoBool strValue with
    | some b => some (.boolV b)
    | none => none
  | .intV w _ =>
    match parseInt64 strValue with
    | some i => if overflowInt w i then none else some (.intV w i)
    | none => none
  | .uintV w _ =>
    match parseUint64 strValue with
    | some u => if overflowUint w u then none else some (.uintV w u)
    | none => none
  | _ => none

/-- Model of `tryConversion` (provider_default.go): cross-kind numeric
conversion. Signed sources convert only to unsigned destinations
(negative rejected, then overflow-checked); unsigned sources convert
only to signed destinations via Go `int64(u)` wraparound followed by
the overflow check. The float rows of the source are outside the
value model. All other kind pairs answer `none` (Go false). -/
def tryConversion (field : Value) (val : Value) : Option Value :=
  match val with
  | .intV _ i =>
    match field with
    | .uintV w _ =>
      if 0 ≤ i then
        if overflowUint w i.toNat then none else some (.uintV w i.toNat)
      else none
    | _ => none
  | .uintV _ u =>
    match field with
    | .intV w _ =>
      if overflowInt w (intCast64 u) then none else some (.intV w (intCast64 u))
    | _ => none
  | _ => none

/-- Model of `setFieldValue` (provider_default.go): refuse non-settable
handles, assign directly when the kinds coincide, otherwise convert
(from a string source through `convertFromString`, from anything
else through `tryConversion`), failing with `ErrIncompatibleType`
when the conversion refuses. -/
def setFieldValue (field : Value) (canSet : Bool) (val : Value) : Except GoErr Value :=
  if !canSet then .error .fieldNotSettable
  else if field.kind ≠ val.kind then
    match val with
    | .strV s =>
      match convertFromString field s with
      | some nv => .ok nv
      | none => .error .incompatibleType
    | _ =>
      match tryConversion field val with
      | some nv => .ok nv
      | none => .error .incompatibleType
  else .ok val

/-- Replace the value of the field named `n` (helper modelling a write
through a `reflect` handle). -/
def setAtField : Fields → String → Value → Fields
  | .nil, _, _ => .nil
  | .cons d v rest, n, nv =>
    if d.name = n then .cons d nv rest else .cons d v (setAtField rest n nv)

/-- Write `nv` at the field the dotted-path segments designate,
following exactly the navigation of `getFieldByPathParts`; the
fields are returned unchanged when the path does not resolve. This
helper models the in-place mutation a `reflect` handle performs. -/
def updateFieldByPath : Fields → List String → Value → Fields
  | fields, [], _ => fields
  | fields, [p], nv => setAtField fields p nv
  | fields, p :: q :: rest, nv =>
    match findField fields p with
    | none => fields
    | some (_, .structV gs) =>
      setAtField fields p (.structV (updateFieldByPath gs (q :: rest) nv))
    | some (_, .ptrV z (.box (.structV gs))) =>
      setAtField fields p (.ptrV z (.box (.structV (updateFieldByPath gs (q :: rest) nv))))
    | some _ => fields

/-- One iteration of the `DefaultProvider.Load` loop: resolve the path
(unresolvable paths are skipped), check the zero value guard, set
the default (incompatible values are skipped). -/
def applyDefaultEntry (fields : Fields) (path : String) (dv : Value) : Fields :=
  match getFieldByPath fields path with
  | .error _ => fields
  | .ok (fv, cs) =>
    if isZeroValue fv then
      match setFieldValue fv cs dv with
      | .error _ => fields
      | .ok nv => updateFieldByPath fields (splitOnStr '.' path) nv
    else fields

/-- The loop of `DefaultProvider.Load` over the `DefaultValues` map;
`defaults` stands for the map contents in the (unspecified) order a
Go `range` would produce them. -/
def defaultLoadFields (defaults : List (String × Value)) (fields : Fields) : Fields :=
  defaults.foldl (fun fs e => applyDefaultEntry fs e.1 e.2) fields

/-- Model of `DefaultProvider.Load` (provider_default.go): an empty map
returns early with no error (before the pointer check); otherwise a
configuration that is not a non-nil pointer to struct is
`ErrInvalidConfig`, and the per-entry loop never fails. -/
def DefaultProvider.Load (defaults : List (String × Value)) (cfg : Value) :
    Value × Option GoErr :=
  if defaults.isEmpty then (cfg, none)
  else
    match cfg with
    | .ptrV z (.box (.structV fields)) =>
      (.ptrV z (.box (.structV (defaultLoadFields defaults fields))), none)
    | _ => (cfg, some .invalidConfig)


/-- Rejoin split groups with the separator (used to model the tail
produced by `strings.SplitN(s, sep, 2)`). -/
def joinChar (sep : Char) : List (List Char) → List Char
  | [] => []
  | [g] => g
  | g :: gs => g ++ sep :: joinChar sep gs

/-- Model of `strings.SplitN(s, sep, 2)` for a one-character separator:
at most one split, at the first occurrence. -/
def splitN2 (sep : Char) (s : String) : List String :=
  match splitChar sep s.data with
  | [] => [""]
  | [g] => [String.mk g]
  | g :: gs => [String.mk g, String.mk (joinChar sep gs)]

/-- Model of `getFieldValue`'s per-segment loop (part_003), with the
same navigation as `getFieldByPathParts` but the distinct error
values of its `fmt.Errorf` sites. -/
def getFieldValueParts : Fields → Bool → Nat → String → List String → Except GoErr (Value × Bool)
  | _, _, _, path, [] => .error (.gfInvalidPath path)
  | fields, canSet, i, path, part :: rest =>
    match findField fields part with
    | none => .error (.gfNotFound part i path)
    | some (d, v) =>
      let cs := canSet && d.exported
      if rest.isEmpty then .ok (v, cs)
      else
        match v with
        | .ptrV _ .nil => .error (.gfNil part i path)
        | .ptrV _ (.box (.structV gs)) => getFieldValueParts gs cs (i + 1) path rest
        | .ptrV _ (.box _) => .error (.gfNotStruct part i path)
        | .structV gs => getFieldValueParts gs cs (i + 1) path rest
        | _ => .error (.gfNotStruct part i path)

/-- Model of `getFieldValue(obj, path)` (part_003): dereference a
pointer argument (the `Elem` of a nil pointer has kind `Invalid`),
require a struct, then walk the dotted path. Intermediate nil
pointers are an error, not materialized. -/
def getFieldValue (obj : Value) (path : String) : Except GoErr (Value × Bool) :=
  let root : Option Value :=
    match obj with
    | .ptrV _ (.box v) => some v
    | .ptrV _ .nil => none
    | v => some v
  match root with
  | some (.structV fields) => getFieldValueParts fields true 0 path (splitOnStr '.' path)
  | _ => .error .gfExpectedStruct

/-- Model of `RequiredRule()` (part_003). Booleans and structs are not
in the Go switch, so they always pass. -/
def RequiredRule (value : Value) : Option GoErr :=
  match value with
  | .strV s => if s = "" then some .ruleRequired else none
  | .intV _ v => if v = 0 then some .ruleRequired else none
  | .uintV _ u => if u = 0 then some .ruleRequired else none
  | .strSliceV xs => if xs.isEmpty then some .ruleRequired else none
  | .ptrV _ .nil => some .ruleRequired
  | .ptrV _ (.box _) => none
  | .boolV _ => none
  | .structV _ => none

/-- Model of `RangeRule(min, max)` (part_003). For an unsigned value the
source first compares against Go `uint64(max)` and fails before any
signed comparison; it then continues with `int64(uval)`. -/
def RangeRule (mn mx : Int) (value : Value) : Option GoErr :=
  let valRes : Except GoErr Int :=
    match value with
    | .intV _ v => .ok v
    | .uintV _ u =>
      if u > natCast64 mx then .error (.ruleGtMaxU u mx) else .ok (intCast64 u)
    | _ => .error .ruleNotNumeric
  match valRes with
  | .error e => some e
  | .ok val =>
    if val < mn then some (.ruleLtMin val mn)
    else if val > mx then some (.ruleGtMaxI val mx)
    else none

/-- Model of `MinRule(min)` (part_003); sequence kinds compare their
length, unsupported kinds fail. -/
def MinRule (mn : Int) (value : Value) : Option GoErr :=
  match value with
  | .intV _ v => if v < mn then some (.ruleLtMin v mn) else none
  | .uintV _ u => if u < natCast64 mn then some (.ruleLtMinU u mn) else none
  | .strSliceV xs => if (xs.length : Int) < mn then some (.lenLtMin xs.length mn) else none
  | _ => some .ruleNoMinSupport

/-- Model of `MaxRule(max)` (part_003). -/
def MaxRule (mx : Int) (value : Value) : Option GoErr :=
  match value with
  | .intV _ v => if v > mx then some (.ruleGtMaxI v mx) else none
  | .uintV _ u => if u > natCast64 mx then some (.ruleGtMaxU u mx) else none
  | .strSliceV xs => if (xs.length : Int) > mx then some (.lenGtMax xs.length mx) else none
  | _ => some .ruleNoMaxSupport

/-- The clause loop of `validateFieldByTag` (part_003): comma-separated
clauses in the order written, trimmed, empty clauses skipped,
`name:arg` split at the first colon; `required`, `range`, `min` and
`max` are evaluated (short-circuiting on the first failure, each
failure wrapped with the field path), anything else is silently
ignored. -/
def validateClauses (field : Value) (fieldPath : String) : List String → Option GoErr
  | [] => none
  | clause :: restClauses =>
    let rule := trimStr clause
    if rule = "" then validateClauses field fieldPath restClauses
    else
      let parts := splitN2 ':' rule
      let ruleName := match parts with | rn :: _ => rn | [] => ""
      let arg? : Option String := match parts with | _ :: a :: _ => some a | _ => none
      if ruleName = "required" then
        match RequiredRule field with
        | some e => some (.valFailed fieldPath e)
        | none => validateClauses field fieldPath restClauses
      else if ruleName = "range" then
        match arg? with
        | none => some (.badRule fieldPath "missing range values")
        | some a =>
          match splitOnStr '-' a with
          | [mnS, mxS] =>
            match parseInt64 mnS with
            | none => some (.badRule fieldPath "invalid range minimum")
            | some mn =>
              match parseInt64 mxS with
              | none => some (.badRule fieldPath "invalid range maximum")
              | some mx =>
                match RangeRule mn mx field with
                | some e => some (.valFailed fieldPath e)
                | none => validateClauses field fieldPath restClauses
          | _ => some (.badRule fieldPath "expected min-max")
      else if ruleName = "min" then
        match arg? with
        | none => some (.badRule fieldPath "missing value")
        | some a =>
          match parseInt64 a with
          | none => some (.badRule fieldPath "invalid min value")
          | some mn =>
            match MinRule mn field with
            | some e => some (.valFailed fieldPath e)
            | none => validateClauses field fieldPath restClauses
      else if ruleName = "max" then
        match arg? with
        | none => some (.badRule fieldPath "missing value")
        | some a =>
          match parseInt64 a with
          | none => some (.badRule fieldPath "invalid max value")
          | some mx =>
            match MaxRule mx field with
            | some e => some (.valFailed fieldPath e)
            | none => validateClauses field fieldPath restClauses
      else validateClauses field fieldPath restClauses

/-- Model of `validateFieldByTag` (part_003). -/
def validateFieldByTag (field : Value) (fieldPath tag : String) : Option GoErr :=
  validateClauses field fieldPath (splitOnStr ',' tag)

/-- Model of `validateStructFields` (part_003): depth-first walk of the
fields in declaration order, skipping unexported fields; each
field's tag clauses run first, then structs and non-nil pointers to
structs are recursed into, short-circuiting on the first error. -/
def validateStructFields : String → Fields → Option GoErr
  | _, .nil => none
  | prefx, .cons d v rest =>
    if d.exported then
      let fieldPath := if prefx ≠ "" then prefx ++ "." ++ d.name else d.name
      let tagRes : Option GoErr :=
        if d.validateTag ≠ "" then validateFieldByTag v fieldPath d.validateTag else none
      match tagRes with
      | some e => some e
      | none =>
        let nested : Option GoErr :=
          match v with
          | .structV fs => validateStructFields fieldPath fs
          | .ptrV _ (.box (.structV pfs)) => validateStructFields fieldPath pfs
          | _ => none
        match nested with
        | some e => some e
        | none => validateStructFields prefx rest
    else validateStructFields prefx rest
termination_by structural _ fs => fs

/-- Model of `DefaultValidator.validateTags` (part_003): dereference a
pointer argument and walk a struct; anything else validates
trivially. -/
def validateTags (cfg : Value) : Option GoErr :=
  let value : Option Value :=
    match cfg with
    | .ptrV _ (.box v) => some v
    | .ptrV _ .nil => none
    | v => some v
  match value with
  | some (.structV fs) => validateStructFields "" fs
  | _ => none

/-- Model of the `DefaultValidator` state: `UseTagValidation` and the
`Rules` map. A Go `map` does not record insertion order and `range`
iterates it in unspecified order, so `rules` stands for the map
contents in one possible iteration order. -/
structure DefaultValidator where
  rules : List (String × (Value → Option GoErr))
  useTagValidation : Bool

/-- The explicit-rules loop of `DefaultValidator.Validate` (part_003):
resolve each rule's path (a resolution failure is an error), apply
the rule, short-circuit on the first failure. -/
def validateExplicitRules (cfg : Value) : List (String × (Value → Option GoErr)) → Option GoErr
  | [] => none
  | (fieldPath, rule) :: rest =>
    match getFieldValue cfg fieldPath with
    | .error e => some (.valErr e)
    | .ok (fv, _) =>
      match rule fv with
      | some e => some (.valFailed fieldPath e)
      | none => validateExplicitRules cfg rest

/-- Model of `DefaultValidator.Validate` (part_003): nil configuration
rejected, explicit rules first, then tag validation if enabled. -/
def DefaultValidator.Validate (v : DefaultValidator) (cfg : Option Value) : Option GoErr :=
  match cfg with
  | none => some .nilConfig
  | some c =>
    match validateExplicitRules c v.rules with
    | some e => some e
    | none => if v.useTagValidation then validateTags c else none


/-- A registered provider as `Configurator.Load` sees it: a name and a
`Load` that mutates the shared configuration in place and may fail;
the pair returned is the configuration as the provider leaves it
(partial mutations included) together with its error. -/
structure GoProvider where
  name : String
  load : Value → Value × Option GoErr

/-- Model of the `Configurator` state assembled by `New`,
`WithProvider` and `WithValidator`: the providers in registration
order and the optional validator. -/
structure Configurator where
  providers : List GoProvider
  validator : Option (Value → Option GoErr)

/-- The provider loop of `Configurator.Load`: invoke each provider in
order on the current configuration; the first error stops the loop
and is returned together with the configuration as mutated so far. -/
def loadProviders : List GoProvider → Value → Value × Option GoErr
  | [], cfg => (cfg, none)
  | p :: rest, cfg =>
    match p.load cfg with
    | (cfg', none) => loadProviders rest cfg'
    | (cfg', some e) => (cfg', some e)

/-- Model of `Configurator.Load` (provider_file.go): reject a
configuration that is not a non-nil pointer to struct, run the
providers in registration order stopping at the first error, and
only when all succeeded run the validator (when one is set) exactly
once on the resulting configuration. -/
def Configurator.Load (c : Configurator) (cfg : Value) : Value × Option GoErr :=
  if isPtrToStruct cfg then
    match loadProviders c.providers cfg with
    | (cfg', none) =>
      match c.validator with
      | some vf => (cfg', vf cfg')
      | none => (cfg', none)
    | (cfg', some e) => (cfg', some e)
  else (cfg, some .invalidConfig)

/-- Capitalize the first character after lowering the rest: the effect
of Go `strings.Title(strings.ToLower(part))` on one
underscore-delimited segment. -/
def titleLower (part : String) : String :=
  match (toLowerStr part).data with
  | [] => ""
  | c :: cs => String.mk (upChar c :: cs)

/-- Model of `secretKeyToFieldPath` (provider_secrets.go):
`"DB_PASSWORD"` becomes `"Db.Password"`. -/
def secretKeyToFieldPath (key : String) : String :=
  joinDots ((splitOnStr '_' key).map titleLower)

/-- Model of `applySecret` (provider_secrets.go): check the
configuration shape, transliterate the file name to a field path,
resolve it with `getFieldValue` and assign the raw content through
`setFieldValue`; the new configuration is returned, or the error
with the configuration untouched. -/
def applySecret (cfg : Value) (secretKey secretValue : String) : Except GoErr Value :=
  match cfg with
  | .ptrV z (.box (.structV fields)) =>
    let fieldPath := secretKeyToFieldPath secretKey
    match getFieldValue cfg fieldPath with
    | .error e => .error e
    | .ok (fv, cs) =>
      match setFieldValue fv cs (.strV secretValue) with
      | .error e => .error e
      | .ok nv =>
        .ok (.ptrV z (.box (.structV (updateFieldByPath fields (splitOnStr '.' fieldPath) nv))))
  | _ => .error .invalidConfig

/-- One directory entry of the secrets mount, together with the outcome
`os.ReadFile` would produce for it (the file system is an external
collaborator). -/
structure DirEntry where
  name : String
  isDir : Bool
  readResult : Except GoErr String

/-- Model of the entry loop of `SecretsProvider.Load`
(provider_secrets.go): directories are skipped; a file that cannot
be read makes the whole load return that error at once; a secret
that fails to apply is recorded as a warning (the `fmt.Printf` line)
and the loop continues with the configuration unchanged. The result
is the final configuration, the warnings in order, and the error. -/
def secretsLoad : List DirEntry → Value → Value × List (String × GoErr) × Option GoErr
  | [], cfg => (cfg, [], none)
  | e :: rest, cfg =>
    if e.isDir then secretsLoad rest cfg
    else
      match e.readResult with
      | .error ioe => (cfg, [], some (.readSecret e.name ioe))
      | .ok content =>
        match applySecret cfg e.name content with
        | .error ae =>
          let r := secretsLoad rest cfg
          (r.1, (e.name, ae) :: r.2.1, r.2.2)
        | .ok cfg2 => secretsLoad rest cfg2


/-- Tagged variant of the example record: the nested `Port` field
carries the struct tag `env:"SERVER_PORT"`. -/
def dPortTagged : FieldDecl :=
  { name := "Port", envTag := "SERVER_PORT", validateTag := "", exported := true }

/-- Example record with the tagged nested port field. -/
def serverPortTaggedFields (pv : Int) : Fields :=
  .cons dServer (.structV (.cons dPortTagged (.intV .wNative pv) .nil)) .nil

/-- The `parent` argument of `processStruct` (the `path` built for
nested structs) never influences the outcome: the environment
variable consulted for a field is built from the prefix and the
field's own tag or name only. -/
theorem processStruct_parent_irrelevant (env : String → String) (pre : String) :
    (parentA parentB : String) → (fs : Fields) →
    processStruct env pre parentA fs = processStruct env pre parentB fs
  | _, _, .nil => rfl
  | parentA, parentB, .cons d (.structV fs) rest => by
    have hrest := processStruct_parent_irrelevant env pre parentA parentB rest
    have hsub := processStruct_parent_irrelevant env pre
      (if parentA ≠ "" then parentA ++ "_" ++ d.name else d.name)
      (if parentB ≠ "" then parentB ++ "_" ++ d.name else d.name) fs
    by_cases hex : d.exported = true
    · simp only [processStruct, hex, if_true]; rw [hsub, hrest]
    · have hex2 : d.exported = false := by revert hex; cases d.exported <;> simp
      simp only [processStruct, hex2, Bool.false_eq_true, if_false]; rw [hrest]
  | parentA, parentB, .cons d (.ptrV (.structV zfs) .nil) rest => by
    have hrest := processStruct_parent_irrelevant env pre parentA parentB rest
    have hsub := processStruct_parent_irrelevant env pre
      (if parentA ≠ "" then parentA ++ "_" ++ d.name else d.name)
      (if parentB ≠ "" then parentB ++ "_" ++ d.name else d.name) zfs
    by_cases hex : d.exported = true
    · simp only [processStruct, hex, if_true]; rw [hsub, hrest]
    · have hex2 : d.exported = false := by revert hex; cases d.exported <;> simp
      simp only [processStruct, hex2, Bool.false_eq_true, if_false]; rw [hrest]
  | parentA, parentB, .cons d (.ptrV (.structV zz) (.box (.structV pfs))) rest => by
    have hrest := processStruct_parent_irrelevant env pre parentA parentB rest
    have hsub := processStruct_parent_irrelevant env pre
      (if parentA ≠ "" then parentA ++ "_" ++ d.name else d.name)
      (if parentB ≠ "" then parentB ++ "_" ++ d.name else d.name) pfs
    by_cases hex : d.exported = true
    · simp only [processStruct, hex, if_true]; rw [hsub, hrest]
    · have hex2 : d.exported = false := by revert hex; cases d.exported <;> simp
      simp only [processStruct, hex2, Bool.false_eq_true, if_false]; rw [hrest]
  | parentA, parentB, .cons d (.ptrV (.structV zz) (.box (.strV s))) rest => by
    have hrest := processStruct_parent_irrelevant env pre parentA parentB rest
    by_cases hex : d.exported = true
    · simp only [processStruct, hex, if_true]; rw [hrest]
    · have hex2 : d.exported = false := by revert hex; cases d.exported <;> simp
      simp only [processStruct, hex2, Bool.false_eq_true, if_false]; rw [hrest]
  | parentA, parentB, .cons d (.ptrV (.structV zz) (.box (.intV w i))) rest => by
    have hrest := processStruct_parent_irrelevant env pre parentA parentB rest
    by_cases hex : d.exported = true
    · simp only [processStruct, hex, if_true]; rw [hrest]
    · have hex2 : d.exported = false := by revert hex; cases d.exported <;> simp
      simp only [processStruct, hex2, Bool.false_eq_true, if_false]; rw [hrest]
  | parentA, parentB, .cons d (.ptrV (.structV zz) (.box (.uintV w u))) rest => by
    have hrest := processStruct_parent_irrelevant env pre parentA parentB rest
    by_cases hex : d.exported = true
    · simp only [processStruct, hex, if_true]; rw [hrest]
    · have hex2 : d.exported = false := by revert hex; cases d.exported <;> simp
      simp only [processStruct, hex2, Bool.false_eq_true, if_false]; rw [hrest]
  | parentA, parentB, .cons d (.ptrV (.structV zz) (.box (.boolV b))) rest => by
    have hrest := processStruct_parent_irrelevant env pre parentA parentB rest
    by_cases hex : d.exported = true
    · simp only [processStruct, hex, if_true]; rw [hrest]
    · have hex2 : d.exported = false := by revert hex; cases d.exported <;> simp
      simp only [processStruct, hex2, Bool.false_eq_true, if_false]; rw [hrest]
  | parentA, parentB, .cons d (.ptrV (.structV zz) (.box (.strSliceV xs))) rest => by
    have hrest := processStruct_parent_irrelevant env pre parentA parentB rest
    by_cases hex : d.exported = true
    · simp only [processStruct, hex, if_true]; rw [hrest]
    · have hex2 : d.exported = false := by revert hex; cases d.exported <;> simp
      simp only [processStruct, hex2, Bool.false_eq_true, if_false]; rw [hrest]
  | parentA, parentB, .cons d (.ptrV (.structV zz) (.box (.ptrV p1 p2))) rest => by
    have hrest := processStruct_parent_irrelevant env pre parentA parentB rest
    by_cases hex : d.exported = true
    · simp only [processStruct, hex, if_true]; rw [hrest]
    · have hex2 : d.exported = false := by revert hex; cases d.exported <;> simp
      simp only [processStruct, hex2, Bool.false_eq_true, if_false]; rw [hrest]
  | parentA, parentB, .cons d (.ptrV (.strV s) po) rest => by
    have hrest := processStruct_parent_irrelevant env pre parentA parentB rest
    by_cases hex : d.exported = true
    · cases po <;> (simp only [processStruct, hex, if_true]; rw [hrest])
    · have hex2 : d.exported = false := by revert hex; cases d.exported <;> simp
      cases po <;>
        (simp only [processStruct, hex2, Bool.false_eq_true, if_false]; rw [hrest])
  | parentA, parentB, .cons d (.ptrV (.intV w i) po) rest => by
    have hrest := processStruct_parent_irrelevant env pre parentA parentB rest
    by_cases hex : d.exported = true
    · cases po <;> (simp only [processStruct, hex, if_true]; rw [hrest])
    · have hex2 : d.exported = false := by revert hex; cases d.exported <;> simp
      cases po <;>
        (simp only [processStruct, hex2, Bool.false_eq_true, if_false]; rw [hrest])
  | parentA, parentB, .cons d (.ptrV (.uintV w u) po) rest => by
    have hrest := processStruct_parent_irrelevant env pre parentA parentB rest
    by_cases hex : d.exported = true
    · cases po <;> (simp only [processStruct, hex, if_true]; rw [hrest])
    · have hex2 : d.exported = false := by revert hex; cases d.exported <;> simp
      cases po <;>
        (simp only [processStruct, hex2, Bool.false_eq_true, if_false]; rw [hrest])
  | parentA, parentB, .cons d (.ptrV (.boolV b) po) rest => by
    have hrest := processStruct_parent_irrelevant env pre parentA parentB rest
    by_cases hex : d.exported = true
    · cases po <;> (simp only [processStruct, hex, if_true]; rw [hrest])
    · have hex2 : d.exported = false := by revert hex; cases d.exported <;> simp
      cases po <;>
        (simp only [processStruct, hex2, Bool.false_eq_true, if_false]; rw [hrest])
  | parentA, parentB, .cons d (.ptrV (.strSliceV xs) po) rest => by
    have hrest := processStruct_parent_irrelevant env pre parentA parentB rest
    by_cases hex : d.exported = true
    · cases po <;> (simp only [processStruct, hex, if_true]; rw [hrest])
    · have hex2 : d.exported = false := by revert hex; cases d.exported <;> simp
      cases po <;>
        (simp only [processStruct, hex2, Bool.false_eq_true, if_false]; rw [hrest])
  | parentA, parentB, .cons d (.ptrV (.ptrV p1 p2) po) rest => by
    have hrest := processStruct_parent_irrelevant env pre parentA parentB rest
    by_cases hex : d.exported = true
    · cases po <;> (simp only [processStruct, hex, if_true]; rw [hrest])
    · have hex2 : d.exported = false := by revert hex; cases d.exported <;> simp
      cases po <;>
        (simp only [processStruct, hex2, Bool.false_eq_true, if_false]; rw [hrest])
  | parentA, parentB, .cons d (.strV s) rest => by
    have hrest := processStruct_parent_irrelevant env pre parentA parentB rest
    by_cases hex : d.exported = true
    · simp only [processStruct, hex, if_true]; rw [hrest]
    · have hex2 : d.exported = false := by revert hex; cases d.exported <;> simp
      simp only [processStruct, hex2, Bool.false_eq_true, if_false]; rw [hrest]
  | parentA, parentB, .cons d (.intV w i) rest => by
    have hrest := processStruct_parent_irrelevant env pre parentA parentB rest
    by_cases hex : d.exported = true
    · simp only [processStruct, hex, if_true]; rw [hrest]
    · have hex2 : d.exported = false := by revert hex; cases d.exported <;> simp
      simp only [processStruct, hex2, Bool.false_eq_true, if_false]; rw [hrest]
  | parentA, parentB, .cons d (.uintV w u) rest => by
    have hrest := processStruct_parent_irrelevant env pre parentA parentB rest
    by_cases hex : d.exported = true
    · simp only [processStruct, hex, if_true]; rw [hrest]
    · have hex2 : d.exported = false := by revert hex; cases d.exported <;> simp
      simp only [processStruct, hex2, Bool.false_eq_true, if_false]; rw [hrest]
  | parentA, parentB, .cons d (.boolV b) rest => by
    have hrest := processStruct_parent_irrelevant env pre parentA parentB rest
    by_cases hex : d.exported = true
    · simp only [processStruct, hex, if_true]; rw [hrest]
    · have hex2 : d.exported = false := by revert hex; cases d.exported <;> simp
      simp only [processStruct, hex2, Bool.false_eq_true, if_false]; rw [hrest]
  | parentA, parentB, .cons d (.strSliceV xs) rest => by
    have hrest := processStruct_parent_irrelevant env pre parentA parentB rest
    by_cases hex : d.exported = true
    · simp only [processStruct, hex, if_true]; rw [hrest]
    · have hex2 : d.exported = false := by revert hex; cases d.exported <;> simp
      simp only [processStruct, hex2, Bool.false_eq_true, if_false]; rw [hrest]

/-- C1 counterexample: with prefix `APP`, the untagged nested field
`Server.Port` is NOT read from `APP_SERVER_PORT` (setting that
variable leaves the field at 0) but from `APP_PORT` (setting that
variable yields 9090): the external names of enclosing nested
composite fields are not joined into the variable name. -/
theorem c1_counterexample :
    processStruct (envOnly "APP_SERVER_PORT" "9090") "APP" "" (serverPortFields 0)
        = .ok (serverPortFields 0)
      ∧ processStruct (envOnly "APP_PORT" "9090") "APP" "" (serverPortFields 0)
        = .ok (serverPortFields 9090)
      ∧ processStruct (envOnly "APP_SERVER_PORT" "9090") "APP" "" (serverPortFields 0)
        ≠ .ok (serverPortFields 9090) := by
  refine ⟨rfl, rfl, ?_⟩
  rw [show processStruct (envOnly "APP_SERVER_PORT" "9090") "APP" "" (serverPortFields 0)
      = .ok (serverPortFields 0) from rfl]
  simp [serverPortFields, dServer, dPort]

/-- C1 amended: the environment variable consulted for a field is
`PREFIX_` + the upper-cased field external name (its `env` tag, or
the structural field name when untagged) with no contribution from
enclosing composite fields: the nesting-derived `parent` argument
never influences the result, the untagged nested `Server.Port` with
prefix `APP` is read from `APP_PORT`, and with explicit tag
`env:"SERVER_PORT"` it is read from `APP_SERVER_PORT`. -/
theorem c1_amended :
    (∀ (env : String → String) (pre parentA parentB : String) (fs : Fields),
        processStruct env pre parentA fs = processStruct env pre parentB fs)
      ∧ processStruct (envOnly "APP_PORT" "9090") "APP" "" (serverPortFields 0)
        = .ok (serverPortFields 9090)
      ∧ processStruct (envOnly "APP_SERVER_PORT" "9090") "APP" "" (serverPortTaggedFields 0)
        = .ok (serverPortTaggedFields 9090)
      ∧ processStruct (envOnly "APP_PORT" "9090") "APP" "" (serverPortTaggedFields 0)
        = .ok (serverPortTaggedFields 0) :=
  ⟨fun env pre parentA parentB fs =>
      processStruct_parent_irrelevant env pre parentA parentB fs,
    rfl, rfl, rfl⟩

/-- Splitting the provider loop at a successful prefix: when the first
providers all succeed, running the whole list is running the suffix
from the state the prefix produced. -/
theorem loadProviders_append_ok :
    ∀ (ps1 : List GoProvider) {ps2 : List GoProvider} {cfg cfg1 : Value},
      loadProviders ps1 cfg = (cfg1, none) →
      loadProviders (ps1 ++ ps2) cfg = loadProviders ps2 cfg1 := by
  intro ps1
  induction ps1 with
  | nil =>
    intro ps2 cfg cfg1 h
    simp only [loadProviders] at h
    cases h
    rfl
  | cons p rest ih =>
    intro ps2 cfg cfg1 h
    simp only [loadProviders, List.cons_append] at h ⊢
    cases hp : p.load cfg with
    | mk cfg' oe =>
      rw [hp] at h
      cases oe with
      | none => exact ih h
      | some e => simp at h

/-- C2: with a configuration that is a non-nil pointer to struct, the
pipeline invokes providers in registration order; the first provider
error is returned at once, with the mutations made so far (including
the failing provider's own partial mutations) left in place, the
remaining providers never invoked and the validator not run; only
when every provider succeeds does the attached validator run, once,
on the final configuration, and its result is the pipeline's
result. -/
theorem c2_pipeline :
    (∀ (ps1 ps2 : List GoProvider) (p : GoProvider)
        (vd : Option (Value → Option GoErr)) (cfg cfg1 cfg2 : Value) (e : GoErr),
        isPtrToStruct cfg = true →
        loadProviders ps1 cfg = (cfg1, none) →
        p.load cfg1 = (cfg2, some e) →
        Configurator.Load ⟨ps1 ++ p :: ps2, vd⟩ cfg = (cfg2, some e))
      ∧ (∀ (ps : List GoProvider) (vd : Option (Value → Option GoErr)) (cfg cfgN : Value),
          isPtrToStruct cfg = true →
          loadProviders ps cfg = (cfgN, none) →
          Configurator.Load ⟨ps, vd⟩ cfg
            = (cfgN, match vd with | some vf => vf cfgN | none => none)) := by
  constructor
  · intro ps1 ps2 p vd cfg cfg1 cfg2 e hptr h1 hp
    simp only [Configurator.Load, hptr, if_true]
    rw [loadProviders_append_ok ps1 h1]
    simp only [loadProviders, hp]
  · intro ps vd cfg cfgN hptr h
    simp only [Configurator.Load, hptr, if_true, h]
    cases vd <;> rfl

/-- Concrete pipeline data for the C2 witness: a provider that rewrites
the configuration, a provider that fails leaving its own partial
state, and a validator that always rejects (and must not run in the
error case). -/
def cfgW : Value :=
  .ptrV (.structV (.cons dPort (.intV .wNative 0) .nil))
    (.box (.structV (.cons dPort (.intV .wNative 0) .nil)))

/-- Configuration after the first witness provider ran. -/
def cfgA : Value :=
  .ptrV (.structV (.cons dPort (.intV .wNative 0) .nil))
    (.box (.structV (.cons dPort (.intV .wNative 1) .nil)))

/-- Witness provider that sets the port to 1. -/
def provA : GoProvider := ⟨"a", fun _ => (cfgA, none)⟩

/-- Witness provider that fails without mutating. -/
def provFail : GoProvider := ⟨"fail", fun c => (c, some (.other "boom"))⟩

/-- C2 witness: the failing second provider's error is returned with
the first provider's mutation in place and the always-failing
validator never consulted; without the failing provider the
validator's verdict is the result. -/
theorem c2_pipeline_witness :
    Configurator.Load ⟨[provA, provFail], some (fun _ => some .ruleRequired)⟩ cfgW
        = (cfgA, some (.other "boom"))
      ∧ Configurator.Load ⟨[provA], some (fun _ => some .ruleRequired)⟩ cfgW
        = (cfgA, some .ruleRequired) :=
  ⟨c2_pipeline.1 [provA] [] provFail (some (fun _ => some .ruleRequired))
      cfgW cfgA cfgA (.other "boom") rfl rfl rfl,
    c2_pipeline.2 [provA] (some (fun _ => some .ruleRequired)) cfgW cfgA rfl rfl⟩

/-- C3: the Default provider assigns a default only when the target
field currently holds its zero/empty value; when the resolved field
is non-zero the entry leaves the configuration unchanged, and
conversely any entry that changes the configuration found its
target field zero. -/
theorem c3_default_zero_guard :
    (∀ (fields : Fields) (path : String) (dv fv : Value) (cs : Bool),
        getFieldByPath fields path = .ok (fv, cs) →
        isZeroValue fv = false →
        applyDefaultEntry fields path dv = fields)
      ∧ (∀ (fields : Fields) (path : String) (dv : Value),
          applyDefaultEntry fields path dv ≠ fields →
          ∃ fv cs, getFieldByPath fields path = .ok (fv, cs) ∧ isZeroValue fv = true) := by
  constructor
  · intro fields path dv fv cs h hz
    simp only [applyDefaultEntry, h, hz, Bool.false_eq_true, if_false]
  · intro fields path dv hne
    simp only [applyDefaultEntry] at hne
    cases hg : getFieldByPath fields path with
    | error e => rw [hg] at hne; exact absurd rfl hne
    | ok r =>
      obtain ⟨fv, cs⟩ := r
      rw [hg] at hne
      cases hz : isZeroValue fv with
      | false => simp [hz] at hne
      | true => exact ⟨fv, cs, rfl, hz⟩

/-- C3 witness: a non-zero port field (7) is not overwritten by the
default 8080. -/
theorem c3_default_zero_guard_witness :
    applyDefaultEntry (.cons dPort (.intV .wNative 7) .nil) "Port" (.intV .wNative 8080)
      = .cons dPort (.intV .wNative 7) .nil :=
  c3_default_zero_guard.1 (.cons dPort (.intV .wNative 7) .nil) "Port"
    (.intV .wNative 8080) (.intV .wNative 7) true rfl rfl

/-- Field declaration for the optional sub-record of the C4 record. -/
def dSub : FieldDecl := { name := "Sub", envTag := "", validateTag := "", exported := true }

/-- Field declaration for the scalar inside the sub-record. -/
def dX : FieldDecl := { name := "X", envTag := "", validateTag := "", exported := true }

/-- Zero value of the sub-record struct type. -/
def subZero : Value := .structV (.cons dX (.intV .wNative 0) .nil)

/-- Record whose `Sub` field is a nil pointer to struct. -/
def nilSubFields : Fields := .cons dSub (.ptrV subZero .nil) .nil

/-- C4 counterexample: both path-driven resolvers fail with an error on
the path `Sub.X` when the intermediate pointer field `Sub` is nil;
neither allocates a fresh composite. -/
theorem c4_counterexample :
    getFieldByPath nilSubFields "Sub.X" = .error .fieldNotFound
      ∧ getFieldValue (.ptrV (.structV nilSubFields) (.box (.structV nilSubFields))) "Sub.X"
        = .error (.gfNil "Sub" 0 "Sub.X") :=
  ⟨rfl, rfl⟩

/-- C4 amended: when path-driven resolution reaches an intermediate
segment holding a nil reference it fails with a not-found error
rather than materializing anything; when the reference is populated
with a struct it descends into the existing value. (Materialization
of nil references on traversal is done only by the environment
provider's parallel, non-path-driven walk.) -/
theorem c4_amended :
    (∀ (fields : Fields) (cs : Bool) (seg : String) (rest : List String)
        (d : FieldDecl) (z : Value),
        findField fields seg = some (d, .ptrV z .nil) → rest ≠ [] →
        getFieldByPathParts fields cs (seg :: rest) = .error .fieldNotFound)
      ∧ (∀ (fields : Fields) (cs : Bool) (seg : String) (rest : List String)
          (d : FieldDecl) (z : Value) (gs : Fields),
          findField fields seg = some (d, .ptrV z (.box (.structV gs))) → rest ≠ [] →
          getFieldByPathParts fields cs (seg :: rest)
            = getFieldByPathParts gs (cs && d.exported) rest) := by
  constructor
  · intro fields cs seg rest d z hf hr
    simp only [getFieldByPathParts, hf, List.isEmpty_eq_true, hr, if_false]
  · intro fields cs seg rest d z gs hf hr
    simp only [getFieldByPathParts, hf, List.isEmpty_eq_true, hr, if_false]

/-- C4 amended witness: on the concrete record, resolution of `Sub.X`
fails while `Sub` is nil, and descends into the existing sub-record
once `Sub` is populated. -/
theorem c4_amended_witness :
    getFieldByPathParts nilSubFields true ["Sub", "X"] = .error .fieldNotFound
      ∧ getFieldByPathParts (.cons dSub (.ptrV subZero (.box subZero)) .nil) true ["Sub", "X"]
        = getFieldByPathParts (.cons dX (.intV .wNative 0) .nil) true ["X"] :=
  ⟨c4_amended.1 nilSubFields true "Sub" ["X"] dSub subZero rfl (by simp),
    c4_amended.2 (.cons dSub (.ptrV subZero (.box subZero)) .nil) true "Sub" ["X"] dSub subZero
      (.cons dX (.intV .wNative 0) .nil) rfl (by simp)⟩

/-- C10: `DefaultProvider.Load` never reports per-entry problems: with a
configuration that is a non-nil pointer to struct it returns no
error whatever the default map holds, and whenever it does return an
error the configuration was not a non-nil pointer to struct (the
error is `ErrInvalidConfig` and the map was nonempty, since an empty
map returns early before the shape check). -/
theorem c10_default_load_total :
    (∀ (defaults : List (String × Value)) (cfg : Value),
        isPtrToStruct cfg = true → (DefaultProvider.Load defaults cfg).2 = none)
      ∧ (∀ (defaults : List (String × Value)) (cfg : Value) (e : GoErr),
          (DefaultProvider.Load defaults cfg).2 = some e →
          isPtrToStruct cfg = false ∧ e = .invalidConfig ∧ defaults ≠ []) := by
  constructor
  · intro defaults cfg hptr
    cases cfg with
    | ptrV z po =>
      cases po with
      | nil => simp [isPtrToStruct] at hptr
      | box pv =>
        cases pv with
        | structV fs =>
          simp only [DefaultProvider.Load]
          cases defaults <;> simp
        | strV s => simp [isPtrToStruct] at hptr
        | intV w i => simp [isPtrToStruct] at hptr
        | uintV w u => simp [isPtrToStruct] at hptr
        | boolV b => simp [isPtrToStruct] at hptr
        | strSliceV xs => simp [isPtrToStruct] at hptr
        | ptrV z2 po2 => simp [isPtrToStruct] at hptr
    | strV s => simp [isPtrToStruct] at hptr
    | intV w i => simp [isPtrToStruct] at hptr
    | uintV w u => simp [isPtrToStruct] at hptr
    | boolV b => simp [isPtrToStruct] at hptr
    | strSliceV xs => simp [isPtrToStruct] at hptr
    | structV fs => simp [isPtrToStruct] at hptr
  · intro defaults cfg e h
    cases defaults with
    | nil => simp [DefaultProvider.Load] at h
    | cons d0 drest =>
      refine ⟨?_, ?_, by simp⟩ <;>
        cases cfg with
        | ptrV z po =>
          cases po with
          | nil => simp_all [DefaultProvider.Load, isPtrToStruct]
          | box pv => cases pv <;> simp_all [DefaultProvider.Load, isPtrToStruct]
        | _ => simp_all [DefaultProvider.Load, isPtrToStruct]

/-- C10 witness: with a valid configuration, a map full of hopeless
entries (unknown path, nil intermediate reference, incompatible
value) still loads with no error. -/
theorem c10_default_load_total_witness :
    (DefaultProvider.Load
        [("Nope", .intV .wNative 1), ("Sub.X", .intV .wNative 2), ("Sub", .strV "x")]
        (.ptrV (.structV nilSubFields) (.box (.structV nilSubFields)))).2 = none :=
  c10_default_load_total.1
    [("Nope", .intV .wNative 1), ("Sub.X", .intV .wNative 2), ("Sub", .strV "x")]
    (.ptrV (.structV nilSubFields) (.box (.structV nilSubFields))) rfl

/-- Field declarations of the two-field record used for C5. -/
def dA : FieldDecl := { name := "A", envTag := "", validateTag := "", exported := true }

/-- Second field of the C5 record. -/
def dB : FieldDecl := { name := "B", envTag := "", validateTag := "", exported := true }

/-- The C5 record: two integer fields A = 1, B = 2. -/
def abFields : Fields := .cons dA (.intV .wNative 1) (.cons dB (.intV .wNative 2) .nil)

/-- The C5 configuration pointer. -/
def abCfg : Value := .ptrV (.structV abFields) (.box (.structV abFields))

/-- Explicit rule that always fails with marker `ruleA`. -/
def ruleFailA : Value → Option GoErr := fun _ => some (.other "ruleA")

/-- Explicit rule that always fails with marker `ruleB`. -/
def ruleFailB : Value → Option GoErr := fun _ => some (.other "ruleB")

/-- C5 counterexample: `Rules` is a Go map, and `range` iterates a map
in unspecified order, so the explicit entries are not evaluated in
`AddRule` registration order: the same two registered entries give
different first failures under the two possible iteration orders, so
the reported error is not determined by the registration order. -/
theorem c5_counterexample :
    DefaultValidator.Validate ⟨[("A", ruleFailA), ("B", ruleFailB)], true⟩ (some abCfg)
        = some (.valFailed "A" (.other "ruleA"))
      ∧ DefaultValidator.Validate ⟨[("B", ruleFailB), ("A", ruleFailA)], true⟩ (some abCfg)
        = some (.valFailed "B" (.other "ruleB"))
      ∧ (some (.valFailed "A" (.other "ruleA")) : Option GoErr)
        ≠ some (.valFailed "B" (.other "ruleB"))
      ∧ [("B", ruleFailB), ("A", ruleFailA)].Perm [("A", ruleFailA), ("B", ruleFailB)] :=
  ⟨rfl, rfl, by decide, List.Perm.swap _ _ _⟩

/-- C5 amended: in whatever order the map iteration presents the
explicit entries, they are all evaluated before any tag-based
traversal (a failing explicit entry makes the result independent of
whether tag validation is enabled), the first failing entry in
iteration order short-circuits the whole validation, and only when
every explicit entry passes does the tag traversal run (when
enabled). -/
theorem c5_amended :
    (∀ (rules : List (String × (Value → Option GoErr))) (useTag : Bool) (c : Value) (e : GoErr),
        validateExplicitRules c rules = some e →
        DefaultValidator.Validate ⟨rules, useTag⟩ (some c) = some e) ∧
    (∀ (rules : List (String × (Value → Option GoErr))) (c : Value),
        validateExplicitRules c rules = none →
        ∀ useTag, DefaultValidator.Validate ⟨rules, useTag⟩ (some c)
          = if useTag then validateTags c else none) ∧
    (∀ (rs1 rs2 : List (String × (Value → Option GoErr))) (pathR : String)
        (r : Value → Option GoErr) (c : Value) (e : GoErr) (fv : Value) (cs : Bool),
        validateExplicitRules c rs1 = none →
        getFieldValue c pathR = .ok (fv, cs) →
        r fv = some e →
        validateExplicitRules c (rs1 ++ (pathR, r) :: rs2) = some (.valFailed pathR e)) := by
  refine ⟨?_, ?_, ?_⟩
  · intro rules useTag c e h
    simp only [DefaultValidator.Validate, h]
  · intro rules c h useTag
    simp only [DefaultValidator.Validate, h]
  · intro rs1
    induction rs1 with
    | nil =>
      intro rs2 pathR r c e fv cs _ hget hr
      simp only [List.nil_append, validateExplicitRules, hget, hr]
    | cons hd tl ih =>
      intro rs2 pathR r c e fv cs h hget hr
      obtain ⟨p1, r1⟩ := hd
      simp only [validateExplicitRules] at h
      cases hg : getFieldValue c p1 with
      | error e2 => simp only [hg] at h; exact Option.noConfusion h
      | ok rv =>
        obtain ⟨fv2, cs2⟩ := rv
        simp only [hg] at h
        cases hr2 : r1 fv2 with
        | some e2 => simp only [hr2] at h; exact Option.noConfusion h
        | none =>
          simp only [hr2] at h
          simp only [List.cons_append, validateExplicitRules, hg, hr2]
          exact ih rs2 pathR r c e fv cs h hget hr

/-- C5 amended witness: with A's rule passing and B's failing, the
combined list fails with B's error. -/
theorem c5_amended_witness :
    validateExplicitRules abCfg [("A", fun _ => none), ("B", ruleFailB)]
      = some (.valFailed "B" (.other "ruleB")) :=
  c5_amended.2.2 [("A", fun _ => none)] [] "B" ruleFailB abCfg (.other "ruleB")
    (.intV .wNative 2) true rfl rfl rfl

/-- Field declaration of the C6 record. -/
def dHost : FieldDecl := { name := "Host", envTag := "", validateTag := "", exported := true }

/-- The C6 record fields: one empty string field `Host`. -/
def hostFields : Fields := .cons dHost (.strV "") .nil

/-- The C6 configuration pointer. -/
def hostCfg : Value := .ptrV (.structV hostFields) (.box (.structV hostFields))

/-- A secret file whose read fails. -/
def badReadEntry : DirEntry := ⟨"HOST", false, .error (.other "permission denied")⟩

/-- A secret file whose name maps to no field (`NOPE` → `Nope`). -/
def unmappedEntry : DirEntry := ⟨"NOPE", false, .ok "x"⟩

/-- A secret file that reads and applies cleanly (`HOST` → `Host`). -/
def goodEntry : DirEntry := ⟨"HOST", false, .ok "example.com"⟩

/-- C6 counterexample: a secret file that cannot be read does NOT
degrade to a warning; `SecretsProvider.Load` returns the wrapped
read error, aborting the remaining secrets. -/
theorem c6_counterexample :
    secretsLoad [badReadEntry, goodEntry] hostCfg
      = (hostCfg, [], some (.readSecret "HOST" (.other "permission denied"))) := rfl

/-- C6 amended: a secret that reads successfully but fails to apply
(unmapped name or incompatible value) only records a warning, leaves
the configuration untouched for that entry and continues with the
remaining secrets; and when every secret file reads successfully the
load never returns an error. A file that cannot be read, however,
aborts the load with an error. -/
theorem c6_amended :
    (∀ (entries : List DirEntry) (cfg : Value),
        (∀ e ∈ entries, ∃ s, e.readResult = .ok s) →
        (secretsLoad entries cfg).2.2 = none)
      ∧ (∀ (e : DirEntry) (rest : List DirEntry) (cfg : Value) (s : String) (ae : GoErr),
          e.isDir = false → e.readResult = .ok s → applySecret cfg e.name s = .error ae →
          secretsLoad (e :: rest) cfg
            = ((secretsLoad rest cfg).1,
                (e.name, ae) :: (secretsLoad rest cfg).2.1,
                (secretsLoad rest cfg).2.2)) := by
  constructor
  · intro entries
    induction entries with
    | nil => intro cfg _; rfl
    | cons e rest ih =>
      intro cfg h
      obtain ⟨s, hs⟩ := h e (by simp)
      have hrest : ∀ e2 ∈ rest, ∃ s2, e2.readResult = .ok s2 := by
        intro e2 he2; exact h e2 (by simp [he2])
      simp only [secretsLoad]
      cases hd : e.isDir with
      | true => simp only [if_true]; exact ih cfg hrest
      | false =>
        simp only [Bool.false_eq_true, if_false, hs]
        cases ha : applySecret cfg e.name s with
        | error ae => simp only []; exact ih cfg hrest
        | ok cfg2 => exact ih cfg2 hrest
  · intro e rest cfg s ae hdir hread happly
    simp only [secretsLoad, hdir, Bool.false_eq_true, if_false, hread, happly]

/-- C6 amended witness: the unmapped secret `NOPE` produces one warning
and the following secret still applies, with no load error. -/
theorem c6_amended_witness :
    secretsLoad [unmappedEntry, goodEntry] hostCfg
        = ((secretsLoad [goodEntry] hostCfg).1,
            ("NOPE", .gfNotFound "Nope" 0 "Nope") :: (secretsLoad [goodEntry] hostCfg).2.1,
            (secretsLoad [goodEntry] hostCfg).2.2)
      ∧ (secretsLoad [unmappedEntry, goodEntry] hostCfg).2.2 = none :=
  ⟨c6_amended.2 unmappedEntry [goodEntry] hostCfg "x" (.gfNotFound "Nope" 0 "Nope")
      rfl rfl rfl,
    c6_amended.1 [unmappedEntry, goodEntry] hostCfg
      (by intro e he; fin_cases he <;> exact ⟨_, rfl⟩)⟩

/-- C7: coercing the literal `"300"` into an 8-bit unsigned field with
any prior value fails on the overflow check before any assignment:
the environment-path coercion reports the overflow, the
string-conversion path refuses (so `setFieldValue` reports
`ErrIncompatibleType`), and the numeric value 300 is likewise
refused by the cross-kind conversion; in each case no new field
value is produced, so the field keeps its prior value. The last two
conjuncts state the destination-width overflow check generally for
unsigned destinations on both the string and the numeric route. -/
theorem c7_uint8_overflow (pv : Nat) :
    applyValueToField (.uintV .w8 pv) "300" = .error (.overflowU 300)
      ∧ convertFromString (.uintV .w8 pv) "300" = none
      ∧ setFieldValue (.uintV .w8 pv) true (.strV "300") = .error .incompatibleType
      ∧ tryConversion (.uintV .w8 pv) (.intV .wNative 300) = none
      ∧ setFieldValue (.uintV .w8 pv) true (.intV .wNative 300) = .error .incompatibleType
      ∧ (∀ (w : Width) (pv2 u : Nat) (s : String),
          parseUint64 s = some u → overflowUint w u = true →
          applyValueToField (.uintV w pv2) s = .error (.overflowU u))
      ∧ (∀ (w : Width) (pv2 : Nat) (i : Int),
          0 ≤ i → overflowUint w i.toNat = true →
          tryConversion (.uintV w pv2) (.intV .wNative i) = none) := by
  refine ⟨rfl, rfl, rfl, rfl, rfl, ?_, ?_⟩
  · intro w pv2 u s hparse hov
    simp only [applyValueToField, hparse, hov, if_true]
  · intro w pv2 i h0 hov
    simp only [tryConversion, h0, if_pos, hov, if_true, if_false]

/-- C7 witness: the general unsigned-destination conjuncts at width 8,
prior value 7 and the literal/value 300. -/
theorem c7_uint8_overflow_witness :
    applyValueToField (.uintV .w8 7) "300" = .error (.overflowU 300)
      ∧ tryConversion (.uintV .w8 7) (.intV .wNative 300) = none :=
  ⟨(c7_uint8_overflow 7).2.2.2.2.2.1 .w8 7 300 "300" rfl rfl,
    (c7_uint8_overflow 7).2.2.2.2.2.2 .w8 7 300 (by decide) rfl⟩

/-- C8: the tag clause `range:1-65535` accepts 1 and 65535 and rejects
0 and 65536 (inclusive bounds), both at the `RangeRule` level and
through the tag grammar; and for every unsigned value above the
maximum the rule fails on the unsigned pre-check (Go
`uval > uint64(max)`) before any signed comparison, whatever the
width — in particular also for values whose `int64` image would be
negative. -/
theorem c8_range_rule :
    RangeRule 1 65535 (.intV .wNative 1) = none
      ∧ RangeRule 1 65535 (.intV .wNative 65535) = none
      ∧ RangeRule 1 65535 (.intV .wNative 0) = some (.ruleLtMin 0 1)
      ∧ RangeRule 1 65535 (.intV .wNative 65536) = some (.ruleGtMaxI 65536 65535)
      ∧ (∀ (w : Width) (u : Nat), 65535 < u →
          RangeRule 1 65535 (.uintV w u) = some (.ruleGtMaxU u 65535))
      ∧ validateFieldByTag (.intV .wNative 1) "Port" "range:1-65535" = none
      ∧ validateFieldByTag (.intV .wNative 65535) "Port" "range:1-65535" = none
      ∧ validateFieldByTag (.intV .wNative 0) "Port" "range:1-65535"
        = some (.valFailed "Port" (.ruleLtMin 0 1))
      ∧ validateFieldByTag (.intV .wNative 65536) "Port" "range:1-65535"
        = some (.valFailed "Port" (.ruleGtMaxI 65536 65535)) := by
  refine ⟨rfl, rfl, rfl, rfl, ?_, rfl, rfl, rfl, rfl⟩
  intro w u h
  have hc : natCast64 65535 = 65535 := rfl
  simp only [RangeRule, hc, gt_iff_lt, h, if_true]

/-- C8 witness: the unsigned pre-check conjunct at 70000 (above the
maximum) and at `2^63` (whose `int64` image is negative, showing the
rejection happens before any signed comparison). -/
theorem c8_range_rule_witness :
    RangeRule 1 65535 (.uintV .w64 70000) = some (.ruleGtMaxU 70000 65535)
      ∧ RangeRule 1 65535 (.uintV .w64 (2 ^ 63)) = some (.ruleGtMaxU (2 ^ 63) 65535) :=
  ⟨c8_range_rule.2.2.2.2.1 .w64 70000 (by norm_num),
    c8_range_rule.2.2.2.2.1 .w64 (2 ^ 63) (by norm_num)⟩

mutual
/-- No nil pointer whose element type is a struct remains in any
position the environment walk processes: exported fields of a
struct, recursively through struct fields and through pointees of
struct-element pointers. -/
def Value.noNilStructPtr : Value → Bool
  | .structV fs => Fields.noNilStructPtr fs
  | .ptrV (.structV _) .nil => false
  | .ptrV (.structV _) (.box (.structV pfs)) => Fields.noNilStructPtr pfs
  | _ => true

/-- Conjunction of `Value.noNilStructPtr` over the exported fields. -/
def Fields.noNilStructPtr : Fields → Bool
  | .nil => true
  | .cons d v rest =>
    (!d.exported || Value.noNilStructPtr v) && Fields.noNilStructPtr rest
end

/-- A successful scalar/slice coercion produces a scalar or slice
value, which trivially contains no nil struct pointer. -/
theorem applyValueToField_ok_noNil (v : Value) (s : String) (v' : Value)
    (h : applyValueToField v s = .ok v') : Value.noNilStructPtr v' = true := by
  cases v with
  | strV s0 =>
    simp only [applyValueToField, Except.ok.injEq] at h; subst h; rfl
  | intV w i0 =>
    simp only [applyValueToField] at h
    cases hp : parseInt64 s with
    | none => simp only [hp] at h; exact Except.noConfusion h
    | some i =>
      simp only [hp] at h
      cases hov : overflowInt w i with
      | true => simp only [hov, if_true] at h; exact Except.noConfusion h
      | false =>
        simp only [hov, Bool.false_eq_true, if_false, Except.ok.injEq] at h
        subst h; rfl
  | uintV w u0 =>
    simp only [applyValueToField] at h
    cases hp : parseUint64 s with
    | none => simp only [hp] at h; exact Except.noConfusion h
    | some u =>
      simp only [hp] at h
      cases hov : overflowUint w u with
      | true => simp only [hov, if_true] at h; exact Except.noConfusion h
      | false =>
        simp only [hov, Bool.false_eq_true, if_false, Except.ok.injEq] at h
        subst h; rfl
  | boolV b0 =>
    simp only [applyValueToField] at h
    cases hp : parseGoBool s with
    | none => simp only [hp] at h; exact Except.noConfusion h
    | some b =>
      simp only [hp, Except.ok.injEq] at h; subst h; rfl
  | strSliceV xs =>
    simp only [applyValueToField, Except.ok.injEq] at h; subst h; rfl
  | structV fs => simp only [applyValueToField] at h; exact Except.noConfusion h
  | ptrV z po => simp only [applyValueToField] at h; exact Except.noConfusion h

/-- After a successful environment walk no nil pointer-to-struct
remains in any exported position: every nil struct pointer the walk
reaches is materialized unconditionally. -/
theorem processStruct_ok_noNil (env : String → String) (pre : String) :
    (parent : String) → (fs : Fields) → (fs' : Fields) →
    processStruct env pre parent fs = .ok fs' → Fields.noNilStructPtr fs' = true
  | parent, .nil, fs', h => by
    simp only [processStruct, Except.ok.injEq] at h
    subst h; rfl
  | parent, .cons d (.structV fs) rest, fs', h => by
    by_cases hex : d.exported = true
    · simp only [processStruct, hex, if_true] at h
      cases h1 : processStruct env pre (if parent ≠ "" then parent ++ "_" ++ d.name else d.name) fs with
      | error e => simp only [h1] at h; exact Except.noConfusion h
      | ok sub1 =>
        simp only [h1] at h
        cases h2 : processStruct env pre parent rest with
        | error e => simp only [h2] at h; exact Except.noConfusion h
        | ok rest1 =>
          simp only [h2, Except.ok.injEq] at h
          subst h
          have ih1 := processStruct_ok_noNil env pre (if parent ≠ "" then parent ++ "_" ++ d.name else d.name) fs sub1 h1
          have ih2 := processStruct_ok_noNil env pre parent rest rest1 h2
          simp [Fields.noNilStructPtr, Value.noNilStructPtr, ih1, ih2]
    · have hex2 : d.exported = false := by revert hex; cases d.exported <;> simp
      simp only [processStruct, hex2, Bool.false_eq_true, if_false] at h
      cases h2 : processStruct env pre parent rest with
      | error e => simp only [h2] at h; exact Except.noConfusion h
      | ok rest1 =>
        simp only [h2, Except.ok.injEq] at h
        subst h
        have ih2 := processStruct_ok_noNil env pre parent rest rest1 h2
        simp [Fields.noNilStructPtr, hex2, ih2]
  | parent, .cons d (.ptrV (.structV zfs) .nil) rest, fs', h => by
    by_cases hex : d.exported = true
    · simp only [processStruct, hex, if_true] at h
      cases h1 : processStruct env pre (if parent ≠ "" then parent ++ "_" ++ d.name else d.name) zfs with
      | error e => simp only [h1] at h; exact Except.noConfusion h
      | ok sub1 =>
        simp only [h1] at h
        cases h2 : processStruct env pre parent rest with
        | error e => simp only [h2] at h; exact Except.noConfusion h
        | ok rest1 =>
          simp only [h2, Except.ok.injEq] at h
          subst h
          have ih1 := processStruct_ok_noNil env pre (if parent ≠ "" then parent ++ "_" ++ d.name else d.name) zfs sub1 h1
          have ih2 := processStruct_ok_noNil env pre parent rest rest1 h2
          simp [Fields.noNilStructPtr, Value.noNilStructPtr, ih1, ih2]
    · have hex2 : d.exported = false := by revert hex; cases d.exported <;> simp
      simp only [processStruct, hex2, Bool.false_eq_true, if_false] at h
      cases h2 : processStruct env pre parent rest with
      | error e => simp only [h2] at h; exact Except.noConfusion h
      | ok rest1 =>
        simp only [h2, Except.ok.injEq] at h
        subst h
        have ih2 := processStruct_ok_noNil env pre parent rest rest1 h2
        simp [Fields.noNilStructPtr, hex2, ih2]
  | parent, .cons d (.ptrV (.structV zz) (.box (.structV pfs))) rest, fs', h => by
    by_cases hex : d.exported = true
    · simp only [processStruct, hex, if_true] at h
      cases h1 : processStruct env pre (if parent ≠ "" then parent ++ "_" ++ d.name else d.name) pfs with
      | error e => simp only [h1] at h; exact Except.noConfusion h
      | ok sub1 =>
        simp only [h1] at h
        cases h2 : processStruct env pre parent rest with
        | error e => simp only [h2] at h; exact Except.noConfusion h
        | ok rest1 =>
          simp only [h2, Except.ok.injEq] at h
          subst h
          have ih1 := processStruct_ok_noNil env pre (if parent ≠ "" then parent ++ "_" ++ d.name else d.name) pfs sub1 h1
          have ih2 := processStruct_ok_noNil env pre parent rest rest1 h2
          simp [Fields.noNilStructPtr, Value.noNilStructPtr, ih1, ih2]
    · have hex2 : d.exported = false := by revert hex; cases d.exported <;> simp
      simp only [processStruct, hex2, Bool.false_eq_true, if_false] at h
      cases h2 : processStruct env pre parent rest with
      | error e => simp only [h2] at h; exact Except.noConfusion h
      | ok rest1 =>
        simp only [h2, Except.ok.injEq] at h
        subst h
        have ih2 := processStruct_ok_noNil env pre parent rest rest1 h2
        simp [Fields.noNilStructPtr, hex2, ih2]
  | parent, .cons d (.ptrV (.structV zz) (.box (.strV s0))) rest, fs', h => by
    by_cases hex : d.exported = true
    · simp only [processStruct, hex, if_true] at h
      cases h2 : processStruct env pre parent rest with
      | error e => simp only [h2] at h; exact Except.noConfusion h
      | ok rest1 =>
        simp only [h2, Except.ok.injEq] at h
        subst h
        have ih2 := processStruct_ok_noNil env pre parent rest rest1 h2
        simp [Fields.noNilStructPtr, Value.noNilStructPtr, ih2]
    · have hex2 : d.exported = false := by revert hex; cases d.exported <;> simp
      simp only [processStruct, hex2, Bool.false_eq_true, if_false] at h
      cases h2 : processStruct env pre parent rest with
      | error e => simp only [h2] at h; exact Except.noConfusion h
      | ok rest1 =>
        simp only [h2, Except.ok.injEq] at h
        subst h
        have ih2 := processStruct_ok_noNil env pre parent rest rest1 h2
        simp [Fields.noNilStructPtr, hex2, ih2]
  | parent, .cons d (.ptrV (.structV zz) (.box (.intV w i0))) rest, fs', h => by
    by_cases hex : d.exported = true
    · simp only [processStruct, hex, if_true] at h
      cases h2 : processStruct env pre parent rest with
      | error e => simp only [h2] at h; exact Except.noConfusion h
      | ok rest1 =>
        simp only [h2, Except.ok.injEq] at h
        subst h
        have ih2 := processStruct_ok_noNil env pre parent rest rest1 h2
        simp [Fields.noNilStructPtr, Value.noNilStructPtr, ih2]
    · have hex2 : d.exported = false := by revert hex; cases d.exported <;> simp
      simp only [processStruct, hex2, Bool.false_eq_true, if_false] at h
      cases h2 : processStruct env pre parent rest with
      | error e => simp only [h2] at h; exact Except.noConfusion h
      | ok rest1 =>
        simp only [h2, Except.ok.injEq] at h
        subst h
        have ih2 := processStruct_ok_noNil env pre parent rest rest1 h2
        simp [Fields.noNilStructPtr, hex2, ih2]
  | parent, .cons d (.ptrV (.structV zz) (.box (.uintV w u0))) rest, fs', h => by
    by_cases hex : d.exported = true
    · simp only [processStruct, hex, if_true] at h
      cases h2 : processStruct env pre parent rest with
      | error e => simp only [h2] at h; exact Except.noConfusion h
      | ok rest1 =>
        simp only [h2, Except.ok.injEq] at h
        subst h
        have ih2 := processStruct_ok_noNil env pre parent rest rest1 h2
        simp [Fields.noNilStructPtr, Value.noNilStructPtr, ih2]
    · have hex2 : d.exported = false := by revert hex; cases d.exported <;> simp
      simp only [processStruct, hex2, Bool.false_eq_true, if_false] at h
      cases h2 : processStruct env pre parent rest with
      | error e => simp only [h2] at h; exact Except.noConfusion h
      | ok rest1 =>
        simp only [h2, Except.ok.injEq] at h
        subst h
        have ih2 := processStruct_ok_noNil env pre parent rest rest1 h2
        simp [Fields.noNilStructPtr, hex2, ih2]
  | parent, .cons d (.ptrV (.structV zz) (.box (.boolV b0))) rest, fs', h => by
    by_cases hex : d.exported = true
    · simp only [processStruct, hex, if_true] at h
      cases h2 : processStruct env pre parent rest with
      | error e => simp only [h2] at h; exact Except.noConfusion h
      | ok rest1 =>
        simp only [h2, Except.ok.injEq] at h
        subst h
        have ih2 := processStruct_ok_noNil env pre parent rest rest1 h2
        simp [Fields.noNilStructPtr, Value.noNilStructPtr, ih2]
    · have hex2 : d.exported = false := by revert hex; cases d.exported <;> simp
      simp only [processStruct, hex2, Bool.false_eq_true, if_false] at h
      cases h2 : processStruct env pre parent rest with
      | error e => simp only [h2] at h; exact Except.noConfusion h
      | ok rest1 =>
        simp only [h2, Except.ok.injEq] at h
        subst h
        have ih2 := processStruct_ok_noNil env pre parent rest rest1 h2
        simp [Fields.noNilStructPtr, hex2, ih2]
  | parent, .cons d (.ptrV (.structV zz) (.box (.strSliceV xs))) rest, fs', h => by
    by_cases hex : d.exported = true
    · simp only [processStruct, hex, if_true] at h
      cases h2 : processStruct env pre parent rest with
      | error e => simp only [h2] at h; exact Except.noConfusion h
      | ok rest1 =>
        simp only [h2, Except.ok.injEq] at h
        subst h
        have ih2 := processStruct_ok_noNil env pre parent rest rest1 h2
        simp [Fields.noNilStructPtr, Value.noNilStructPtr, ih2]
    · have hex2 : d.exported = false := by revert hex; cases d.exported <;> simp
      simp only [processStruct, hex2, Bool.false_eq_true, if_false] at h
      cases h2 : processStruct env pre parent rest with
      | error e => simp only [h2] at h; exact Except.noConfusion h
      | ok rest1 =>
        simp only [h2, Except.ok.injEq] at h
        subst h
        have ih2 := processStruct_ok_noNil env pre parent rest rest1 h2
        simp [Fields.noNilStructPtr, hex2, ih2]
  | parent, .cons d (.ptrV (.structV zz) (.box (.ptrV p1 p2))) rest, fs', h => by
    by_cases hex : d.exported = true
    · simp only [processStruct, hex, if_true] at h
      cases h2 : processStruct env pre parent rest with
      | error e => simp only [h2] at h; exact Except.noConfusion h
      | ok rest1 =>
        simp only [h2, Except.ok.injEq] at h
        subst h
        have ih2 := processStruct_ok_noNil env pre parent rest rest1 h2
        simp [Fields.noNilStructPtr, Value.noNilStructPtr, ih2]
    · have hex2 : d.exported = false := by revert hex; cases d.exported <;> simp
      simp only [processStruct, hex2, Bool.false_eq_true, if_false] at h
      cases h2 : processStruct env pre parent rest with
      | error e => simp only [h2] at h; exact Except.noConfusion h
      | ok rest1 =>
        simp only [h2, Except.ok.injEq] at h
        subst h
        have ih2 := processStruct_ok_noNil env pre parent rest rest1 h2
        simp [Fields.noNilStructPtr, hex2, ih2]
  | parent, .cons d (.ptrV (.strV s0) po) rest, fs', h => by
    by_cases hex : d.exported = true
    · cases po with
      | nil =>
        simp only [processStruct, hex, if_true] at h
        cases h2 : processStruct env pre parent rest with
        | error e => simp only [h2] at h; exact Except.noConfusion h
        | ok rest1 =>
          simp only [h2, Except.ok.injEq] at h
          subst h
          have ih2 := processStruct_ok_noNil env pre parent rest rest1 h2
          simp [Fields.noNilStructPtr, Value.noNilStructPtr, ih2]
      | box pv =>
        simp only [processStruct, hex, if_true] at h
        cases h2 : processStruct env pre parent rest with
        | error e => simp only [h2] at h; exact Except.noConfusion h
        | ok rest1 =>
          simp only [h2, Except.ok.injEq] at h
          subst h
          have ih2 := processStruct_ok_noNil env pre parent rest rest1 h2
          simp [Fields.noNilStructPtr, Value.noNilStructPtr, ih2]
    · have hex2 : d.exported = false := by revert hex; cases d.exported <;> simp
      cases po with
      | nil =>
        simp only [processStruct, hex2, Bool.false_eq_true, if_false] at h
        cases h2 : processStruct env pre parent rest with
        | error e => simp only [h2] at h; exact Except.noConfusion h
        | ok rest1 =>
          simp only [h2, Except.ok.injEq] at h
          subst h
          have ih2 := processStruct_ok_noNil env pre parent rest rest1 h2
          simp [Fields.noNilStructPtr, hex2, ih2]
      | box pv =>
        simp only [processStruct, hex2, Bool.false_eq_true, if_false] at h
        cases h2 : processStruct env pre parent rest with
        | error e => simp only [h2] at h; exact Except.noConfusion h
        | ok rest1 =>
          simp only [h2, Except.ok.injEq] at h
          subst h
          have ih2 := processStruct_ok_noNil env pre parent rest rest1 h2
          simp [Fields.noNilStructPtr, hex2, ih2]
  | parent, .cons d (.ptrV (.intV w i0) po) rest, fs', h => by
    by_cases hex : d.exported = true
    · cases po with
      | nil =>
        simp only [processStruct, hex, if_true] at h
        cases h2 : processStruct env pre parent rest with
        | error e => simp only [h2] at h; exact Except.noConfusion h
        | ok rest1 =>
          simp only [h2, Except.ok.injEq] at h
          subst h
          have ih2 := processStruct_ok_noNil env pre parent rest rest1 h2
          simp [Fields.noNilStructPtr, Value.noNilStructPtr, ih2]
      | box pv =>
        simp only [processStruct, hex, if_true] at h
        cases h2 : processStruct env pre parent rest with
        | error e => simp only [h2] at h; exact Except.noConfusion h
        | ok rest1 =>
          simp only [h2, Except.ok.injEq] at h
          subst h
          have ih2 := processStruct_ok_noNil env pre parent rest rest1 h2
          simp [Fields.noNilStructPtr, Value.noNilStructPtr, ih2]
    · have hex2 : d.exported = false := by revert hex; cases d.exported <;> simp
      cases po with
      | nil =>
        simp only [processStruct, hex2, Bool.false_eq_true, if_false] at h
        cases h2 : processStruct env pre parent rest with
        | error e => simp only [h2] at h; exact Except.noConfusion h
        | ok rest1 =>
          simp only [h2, Except.ok.injEq] at h
          subst h
          have ih2 := processStruct_ok_noNil env pre parent rest rest1 h2
          simp [Fields.noNilStructPtr, hex2, ih2]
      | box pv =>
        simp only [processStruct, hex2, Bool.false_eq_true, if_false] at h
        cases h2 : processStruct env pre parent rest with
        | error e => simp only [h2] at h; exact Except.noConfusion h
        | ok rest1 =>
          simp only [h2, Except.ok.injEq] at h
          subst h
          have ih2 := processStruct_ok_noNil env pre parent rest rest1 h2
          simp [Fields.noNilStructPtr, hex2, ih2]
  | parent, .cons d (.ptrV (.uintV w u0) po) rest, fs', h => by
    by_cases hex : d.exported = true
    · cases po with
      | nil =>
        simp only [processStruct, hex, if_true] at h
        cases h2 : processStruct env pre parent rest with
        | error e => simp only [h2] at h; exact Except.noConfusion h
        | ok rest1 =>
          simp only [h2, Except.ok.injEq] at h
          subst h
          have ih2 := processStruct_ok_noNil env pre parent rest rest1 h2
          simp [Fields.noNilStructPtr, Value.noNilStructPtr, ih2]
      | box pv =>
        simp only [processStruct, hex, if_true] at h
        cases h2 : processStruct env pre parent rest with
        | error e => simp only [h2] at h; exact Except.noConfusion h
        | ok rest1 =>
          simp only [h2, Except.ok.injEq] at h
          subst h
          have ih2 := processStruct_ok_noNil env pre parent rest rest1 h2
          simp [Fields.noNilStructPtr, Value.noNilStructPtr, ih2]
    · have hex2 : d.exported = false := by revert hex; cases d.exported <;> simp
      cases po with
      | nil =>
        simp only [processStruct, hex2, Bool.false_eq_true, if_false] at h
        cases h2 : processStruct env pre parent rest with
        | error e => simp only [h2] at h; exact Except.noConfusion h
        | ok rest1 =>
          simp only [h2, Except.ok.injEq] at h
          subst h
          have ih2 := processStruct_ok_noNil env pre parent rest rest1 h2
          simp [Fields.noNilStructPtr, hex2, ih2]
      | box pv =>
        simp only [processStruct, hex2, Bool.false_eq_true, if_false] at h
        cases h2 : processStruct env pre parent rest with
        | error e => simp only [h2] at h; exact Except.noConfusion h
        | ok rest1 =>
          simp only [h2, Except.ok.injEq] at h
          subst h
          have ih2 := processStruct_ok_noNil env pre parent rest rest1 h2
          simp [Fields.noNilStructPtr, hex2, ih2]
  | parent, .cons d (.ptrV (.boolV b0) po) rest, fs', h => by
    by_cases hex : d.exported = true
    · cases po with
      | nil =>
        simp only [processStruct, hex, if_true] at h
        cases h2 : processStruct env pre parent rest with
        | error e => simp only [h2] at h; exact Except.noConfusion h
        | ok rest1 =>
          simp only [h2, Except.ok.injEq] at h
          subst h
          have ih2 := processStruct_ok_noNil env pre parent rest rest1 h2
          simp [Fields.noNilStructPtr, Value.noNilStructPtr, ih2]
      | box pv =>
        simp only [processStruct, hex, if_true] at h
        cases h2 : processStruct env pre parent rest with
        | error e => simp only [h2] at h; exact Except.noConfusion h
        | ok rest1 =>
          simp only [h2, Except.ok.injEq] at h
          subst h
          have ih2 := processStruct_ok_noNil env pre parent rest rest1 h2
          simp [Fields.noNilStructPtr, Value.noNilStructPtr, ih2]
    · have hex2 : d.exported = false := by revert hex; cases d.exported <;> simp
      cases po with
      | nil =>
        simp only [processStruct, hex2, Bool.false_eq_true, if_false] at h
        cases h2 : processStruct env pre parent rest with
        | error e => simp only [h2] at h; exact Except.noConfusion h
        | ok rest1 =>
          simp only [h2, Except.ok.injEq] at h
          subst h
          have ih2 := processStruct_ok_noNil env pre parent rest rest1 h2
          simp [Fields.noNilStructPtr, hex2, ih2]
      | box pv =>
        simp only [processStruct, hex2, Bool.false_eq_true, if_false] at h
        cases h2 : processStruct env pre parent rest with
        | error e => simp only [h2] at h; exact Except.noConfusion h
        | ok rest1 =>
          simp only [h2, Except.ok.injEq] at h
          subst h
          have ih2 := processStruct_ok_noNil env pre parent rest rest1 h2
          simp [Fields.noNilStructPtr, hex2, ih2]
  | parent, .cons d (.ptrV (.strSliceV xs) po) rest, fs', h => by
    by_cases hex : d.exported = true
    · cases po with
      | nil =>
        simp only [processStruct, hex, if_true] at h
        cases h2 : processStruct env pre parent rest with
        | error e => simp only [h2] at h; exact Except.noConfusion h
        | ok rest1 =>
          simp only [h2, Except.ok.injEq] at h
          subst h
          have ih2 := processStruct_ok_noNil env pre parent rest rest1 h2
          simp [Fields.noNilStructPtr, Value.noNilStructPtr, ih2]
      | box pv =>
        simp only [processStruct, hex, if_true] at h
        cases h2 : processStruct env pre parent rest with
        | error e => simp only [h2] at h; exact Except.noConfusion h
        | ok rest1 =>
          simp only [h2, Except.ok.injEq] at h
          subst h
          have ih2 := processStruct_ok_noNil env pre parent rest rest1 h2
          simp [Fields.noNilStructPtr, Value.noNilStructPtr, ih2]
    · have hex2 : d.exported = false := by revert hex; cases d.exported <;> simp
      cases po with
      | nil =>
        simp only [processStruct, hex2, Bool.false_eq_true, if_false] at h
        cases h2 : processStruct env pre parent rest with
        | error e => simp only [h2] at h; exact Except.noConfusion h
        | ok rest1 =>
          simp only [h2, Except.ok.injEq] at h
          subst h
          have ih2 := processStruct_ok_noNil env pre parent rest rest1 h2
          simp [Fields.noNilStructPtr, hex2, ih2]
      | box pv =>
        simp only [processStruct, hex2, Bool.false_eq_true, if_false] at h
        cases h2 : processStruct env pre parent rest with
        | error e => simp only [h2] at h; exact Except.noConfusion h
        | ok rest1 =>
          simp only [h2, Except.ok.injEq] at h
          subst h
          have ih2 := processStruct_ok_noNil env pre parent rest rest1 h2
          simp [Fields.noNilStructPtr, hex2, ih2]
  | parent, .cons d (.ptrV (.ptrV p1 p2) po) rest, fs', h => by
    by_cases hex : d.exported = true
    · cases po with
      | nil =>
        simp only [processStruct, hex, if_true] at h
        cases h2 : processStruct env pre parent rest with
        | error e => simp only [h2] at h; exact Except.noConfusion h
        | ok rest1 =>
          simp only [h2, Except.ok.injEq] at h
          subst h
          have ih2 := processStruct_ok_noNil env pre parent rest rest1 h2
          simp [Fields.noNilStructPtr, Value.noNilStructPtr, ih2]
      | box pv =>
        simp only [processStruct, hex, if_true] at h
        cases h2 : processStruct env pre parent rest with
        | error e => simp only [h2] at h; exact Except.noConfusion h
        | ok rest1 =>
          simp only [h2, Except.ok.injEq] at h
          subst h
          have ih2 := processStruct_ok_noNil env pre parent rest rest1 h2
          simp [Fields.noNilStructPtr, Value.noNilStructPtr, ih2]
    · have hex2 : d.exported = false := by revert hex; cases d.exported <;> simp
      cases po with
      | nil =>
        simp only [processStruct, hex2, Bool.false_eq_true, if_false] at h
        cases h2 : processStruct env pre parent rest with
        | error e => simp only [h2] at h; exact Except.noConfusion h
        | ok rest1 =>
          simp only [h2, Except.ok.injEq] at h
          subst h
          have ih2 := processStruct_ok_noNil env pre parent rest rest1 h2
          simp [Fields.noNilStructPtr, hex2, ih2]
      | box pv =>
        simp only [processStruct, hex2, Bool.false_eq_true, if_false] at h
        cases h2 : processStruct env pre parent rest with
        | error e => simp only [h2] at h; exact Except.noConfusion h
        | ok rest1 =>
          simp only [h2, Except.ok.injEq] at h
          subst h
          have ih2 := processStruct_ok_noNil env pre parent rest rest1 h2
          simp [Fields.noNilStructPtr, hex2, ih2]
  | parent, .cons d (.strV s0) rest, fs', h => by
    by_cases hex : d.exported = true
    · simp only [processStruct, hex, if_true] at h
      by_cases hE : env (if pre ≠ "" then pre ++ "_" ++ toUpperStr (if d.envTag ≠ "" then d.envTag else d.name) else toUpperStr (if d.envTag ≠ "" then d.envTag else d.name)) = ""
      · rw [if_pos hE] at h
        cases h2 : processStruct env pre parent rest with
        | error e => simp only [h2] at h; exact Except.noConfusion h
        | ok rest1 =>
          simp only [h2, Except.ok.injEq] at h
          subst h
          have ih2 := processStruct_ok_noNil env pre parent rest rest1 h2
          simp [Fields.noNilStructPtr, Value.noNilStructPtr, ih2]
      · rw [if_neg hE] at h
        cases ha : applyValueToField (.strV s0) (env (if pre ≠ "" then pre ++ "_" ++ toUpperStr (if d.envTag ≠ "" then d.envTag else d.name) else toUpperStr (if d.envTag ≠ "" then d.envTag else d.name))) with
        | error e => simp only [ha] at h; exact Except.noConfusion h
        | ok v2 =>
          simp only [ha] at h
          cases h2 : processStruct env pre parent rest with
          | error e => simp only [h2] at h; exact Except.noConfusion h
          | ok rest1 =>
            simp only [h2, Except.ok.injEq] at h
            subst h
            have ih2 := processStruct_ok_noNil env pre parent rest rest1 h2
            have hv := applyValueToField_ok_noNil _ _ _ ha
            simp [Fields.noNilStructPtr, hv, ih2]
    · have hex2 : d.exported = false := by revert hex; cases d.exported <;> simp
      simp only [processStruct, hex2, Bool.false_eq_true, if_false] at h
      cases h2 : processStruct env pre parent rest with
      | error e => simp only [h2] at h; exact Except.noConfusion h
      | ok rest1 =>
        simp only [h2, Except.ok.injEq] at h
        subst h
        have ih2 := processStruct_ok_noNil env pre parent rest rest1 h2
        simp [Fields.noNilStructPtr, Value.noNilStructPtr, hex2, ih2]
  | parent, .cons d (.intV w i0) rest, fs', h => by
    by_cases hex : d.exported = true
    · simp only [processStruct, hex, if_true] at h
      by_cases hE : env (if pre ≠ "" then pre ++ "_" ++ toUpperStr (if d.envTag ≠ "" then d.envTag else d.name) else toUpperStr (if d.envTag ≠ "" then d.envTag else d.name)) = ""
      · rw [if_pos hE] at h
        cases h2 : processStruct env pre parent rest with
        | error e => simp only [h2] at h; exact Except.noConfusion h
        | ok rest1 =>
          simp only [h2, Except.ok.injEq] at h
          subst h
          have ih2 := processStruct_ok_noNil env pre parent rest rest1 h2
          simp [Fields.noNilStructPtr, Value.noNilStructPtr, ih2]
      · rw [if_neg hE] at h
        cases ha : applyValueToField (.intV w i0) (env (if pre ≠ "" then pre ++ "_" ++ toUpperStr (if d.envTag ≠ "" then d.envTag else d.name) else toUpperStr (if d.envTag ≠ "" then d.envTag else d.name))) with
        | error e => simp only [ha] at h; exact Except.noConfusion h
        | ok v2 =>
          simp only [ha] at h
          cases h2 : processStruct env pre parent rest with
          | error e => simp only [h2] at h; exact Except.noConfusion h
          | ok rest1 =>
            simp only [h2, Except.ok.injEq] at h
            subst h
            have ih2 := processStruct_ok_noNil env pre parent rest rest1 h2
            have hv := applyValueToField_ok_noNil _ _ _ ha
            simp [Fields.noNilStructPtr, hv, ih2]
    · have hex2 : d.exported = false := by revert hex; cases d.exported <;> simp
      simp only [processStruct, hex2, Bool.false_eq_true, if_false] at h
      cases h2 : processStruct env pre parent rest with
      | error e => simp only [h2] at h; exact Except.noConfusion h
      | ok rest1 =>
        simp only [h2, Except.ok.injEq] at h
        subst h
        have ih2 := processStruct_ok_noNil env pre parent rest rest1 h2
        simp [Fields.noNilStructPtr, Value.noNilStructPtr, hex2, ih2]
  | parent, .cons d (.uintV w u0) rest, fs', h => by
    by_cases hex : d.exported = true
    · simp only [processStruct, hex, if_true] at h
      by_cases hE : env (if pre ≠ "" then pre ++ "_" ++ toUpperStr (if d.envTag ≠ "" then d.envTag else d.name) else toUpperStr (if d.envTag ≠ "" then d.envTag else d.name)) = ""
      · rw [if_pos hE] at h
        cases h2 : processStruct env pre parent rest with
        | error e => simp only [h2] at h; exact Except.noConfusion h
        | ok rest1 =>
          simp only [h2, Except.ok.injEq] at h
          subst h
          have ih2 := processStruct_ok_noNil env pre parent rest rest1 h2
          simp [Fields.noNilStructPtr, Value.noNilStructPtr, ih2]
      · rw [if_neg hE] at h
        cases ha : applyValueToField (.uintV w u0) (env (if pre ≠ "" then pre ++ "_" ++ toUpperStr (if d.envTag ≠ "" then d.envTag else d.name) else toUpperStr (if d.envTag ≠ "" then d.envTag else d.name))) with
        | error e => simp only [ha] at h; exact Except.noConfusion h
        | ok v2 =>
          simp only [ha] at h
          cases h2 : processStruct env pre parent rest with
          | error e => simp only [h2] at h; exact Except.noConfusion h
          | ok rest1 =>
            simp only [h2, Except.ok.injEq] at h
            subst h
            have ih2 := processStruct_ok_noNil env pre parent rest rest1 h2
            have hv := applyValueToField_ok_noNil _ _ _ ha
            simp [Fields.noNilStructPtr, hv, ih2]
    · have hex2 : d.exported = false := by revert hex; cases d.exported <;> simp
      simp only [processStruct, hex2, Bool.false_eq_true, if_false] at h
      cases h2 : processStruct env pre parent rest with
      | error e => simp only [h2] at h; exact Except.noConfusion h
      | ok rest1 =>
        simp only [h2, Except.ok.injEq] at h
        subst h
        have ih2 := processStruct_ok_noNil env pre parent rest rest1 h2
        simp [Fields.noNilStructPtr, Value.noNilStructPtr, hex2, ih2]
  | parent, .cons d (.boolV b0) rest, fs', h => by
    by_cases hex : d.exported = true
    · simp only [processStruct, hex, if_true] at h
      by_cases hE : env (if pre ≠ "" then pre ++ "_" ++ toUpperStr (if d.envTag ≠ "" then d.envTag else d.name) else toUpperStr (if d.envTag ≠ "" then d.envTag else d.name)) = ""
      · rw [if_pos hE] at h
        cases h2 : processStruct env pre parent rest with
        | error e => simp only [h2] at h; exact Except.noConfusion h
        | ok rest1 =>
          simp only [h2, Except.ok.injEq] at h
          subst h
          have ih2 := processStruct_ok_noNil env pre parent rest rest1 h2
          simp [Fields.noNilStructPtr, Value.noNilStructPtr, ih2]
      · rw [if_neg hE] at h
        cases ha : applyValueToField (.boolV b0) (env (if pre ≠ "" then pre ++ "_" ++ toUpperStr (if d.envTag ≠ "" then d.envTag else d.name) else toUpperStr (if d.envTag ≠ "" then d.envTag else d.name))) with
        | error e => simp only [ha] at h; exact Except.noConfusion h
        | ok v2 =>
          simp only [ha] at h
          cases h2 : processStruct env pre parent rest with
          | error e => simp only [h2] at h; exact Except.noConfusion h
          | ok rest1 =>
            simp only [h2, Except.ok.injEq] at h
            subst h
            have ih2 := processStruct_ok_noNil env pre parent rest rest1 h2
            have hv := applyValueToField_ok_noNil _ _ _ ha
            simp [Fields.noNilStructPtr, hv, ih2]
    · have hex2 : d.exported = false := by revert hex; cases d.exported <;> simp
      simp only [processStruct, hex2, Bool.false_eq_true, if_false] at h
      cases h2 : processStruct env pre parent rest with
      | error e => simp only [h2] at h; exact Except.noConfusion h
      | ok rest1 =>
        simp only [h2, Except.ok.injEq] at h
        subst h
        have ih2 := processStruct_ok_noNil env pre parent rest rest1 h2
        simp [Fields.noNilStructPtr, Value.noNilStructPtr, hex2, ih2]
  | parent, .cons d (.strSliceV xs) rest, fs', h => by
    by_cases hex : d.exported = true
    · simp only [processStruct, hex, if_true] at h
      by_cases hE : env (if pre ≠ "" then pre ++ "_" ++ toUpperStr (if d.envTag ≠ "" then d.envTag else d.name) else toUpperStr (if d.envTag ≠ "" then d.envTag else d.name)) = ""
      · rw [if_pos hE] at h
        cases h2 : processStruct env pre parent rest with
        | error e => simp only [h2] at h; exact Except.noConfusion h
        | ok rest1 =>
          simp only [h2, Except.ok.injEq] at h
          subst h
          have ih2 := processStruct_ok_noNil env pre parent rest rest1 h2
          simp [Fields.noNilStructPtr, Value.noNilStructPtr, ih2]
      · rw [if_neg hE] at h
        cases ha : applyValueToField (.strSliceV xs) (env (if pre ≠ "" then pre ++ "_" ++ toUpperStr (if d.envTag ≠ "" then d.envTag else d.name) else toUpperStr (if d.envTag ≠ "" then d.envTag else d.name))) with
        | error e => simp only [ha] at h; exact Except.noConfusion h
        | ok v2 =>
          simp only [ha] at h
          cases h2 : processStruct env pre parent rest with
          | error e => simp only [h2] at h; exact Except.noConfusion h
          | ok rest1 =>
            simp only [h2, Except.ok.injEq] at h
            subst h
            have ih2 := processStruct_ok_noNil env pre parent rest rest1 h2
            have hv := applyValueToField_ok_noNil _ _ _ ha
            simp [Fields.noNilStructPtr, hv, ih2]
    · have hex2 : d.exported = false := by revert hex; cases d.exported <;> simp
      simp only [processStruct, hex2, Bool.false_eq_true, if_false] at h
      cases h2 : processStruct env pre parent rest with
      | error e => simp only [h2] at h; exact Except.noConfusion h
      | ok rest1 =>
        simp only [h2, Except.ok.injEq] at h
        subst h
        have ih2 := processStruct_ok_noNil env pre parent rest rest1 h2
        simp [Fields.noNilStructPtr, Value.noNilStructPtr, hex2, ih2]

/-- With no environment variable set, the environment walk always
succeeds (it only materializes nil struct pointers and leaves every
scalar field alone). -/
theorem processStruct_empty_env_ok (pre : String) :
    (parent : String) → (fs : Fields) →
    ∃ fs', processStruct (fun _ => "") pre parent fs = .ok fs'
  | _, .nil => ⟨.nil, rfl⟩
  | parent, .cons d (.structV fs) rest => by
    obtain ⟨sub1, h1⟩ := processStruct_empty_env_ok pre (if parent ≠ "" then parent ++ "_" ++ d.name else d.name) fs
    obtain ⟨rest1, h2⟩ := processStruct_empty_env_ok pre parent rest
    by_cases hex : d.exported = true
    · refine ⟨.cons d (.structV sub1) rest1, ?_⟩
      simp only [processStruct, hex, if_true, h1, h2]
    · have hex2 : d.exported = false := by revert hex; cases d.exported <;> simp
      refine ⟨.cons d (.structV fs) rest1, ?_⟩
      simp [processStruct, hex2, h2]
  | parent, .cons d (.ptrV (.structV zfs) .nil) rest => by
    obtain ⟨sub1, h1⟩ := processStruct_empty_env_ok pre (if parent ≠ "" then parent ++ "_" ++ d.name else d.name) zfs
    obtain ⟨rest1, h2⟩ := processStruct_empty_env_ok pre parent rest
    by_cases hex : d.exported = true
    · refine ⟨.cons d (.ptrV (.structV zfs) (.box (.structV sub1))) rest1, ?_⟩
      simp only [processStruct, hex, if_true, h1, h2]
    · have hex2 : d.exported = false := by revert hex; cases d.exported <;> simp
      refine ⟨.cons d (.ptrV (.structV zfs) .nil) rest1, ?_⟩
      simp [processStruct, hex2, h2]
  | parent, .cons d (.ptrV (.structV zz) (.box (.structV pfs))) rest => by
    obtain ⟨sub1, h1⟩ := processStruct_empty_env_ok pre (if parent ≠ "" then parent ++ "_" ++ d.name else d.name) pfs
    obtain ⟨rest1, h2⟩ := processStruct_empty_env_ok pre parent rest
    by_cases hex : d.exported = true
    · refine ⟨.cons d (.ptrV (.structV zz) (.box (.structV sub1))) rest1, ?_⟩
      simp only [processStruct, hex, if_true, h1, h2]
    · have hex2 : d.exported = false := by revert hex; cases d.exported <;> simp
      refine ⟨.cons d (.ptrV (.structV zz) (.box (.structV pfs))) rest1, ?_⟩
      simp [processStruct, hex2, h2]
  | parent, .cons d (.ptrV (.structV zz) (.box (.strV s0))) rest => by
    obtain ⟨rest1, h2⟩ := processStruct_empty_env_ok pre parent rest
    by_cases hex : d.exported = true
    · exact ⟨.cons d (.ptrV (.structV zz) (.box (.strV s0))) rest1, by simp [processStruct, hex, h2]⟩
    · have hex2 : d.exported = false := by revert hex; cases d.exported <;> simp
      exact ⟨.cons d (.ptrV (.structV zz) (.box (.strV s0))) rest1, by simp [processStruct, hex2, h2]⟩
  | parent, .cons d (.ptrV (.structV zz) (.box (.intV w i0))) rest => by
    obtain ⟨rest1, h2⟩ := processStruct_empty_env_ok pre parent rest
    by_cases hex : d.exported = true
    · exact ⟨.cons d (.ptrV (.structV zz) (.box (.intV w i0))) rest1, by simp [processStruct, hex, h2]⟩
    · have hex2 : d.exported = false := by revert hex; cases d.exported <;> simp
      exact ⟨.cons d (.ptrV (.structV zz) (.box (.intV w i0))) rest1, by simp [processStruct, hex2, h2]⟩
  | parent, .cons d (.ptrV (.structV zz) (.box (.uintV w u0))) rest => by
    obtain ⟨rest1, h2⟩ := processStruct_empty_env_ok pre parent rest
    by_cases hex : d.exported = true
    · exact ⟨.cons d (.ptrV (.structV zz) (.box (.uintV w u0))) rest1, by simp [processStruct, hex, h2]⟩
    · have hex2 : d.exported = false := by revert hex; cases d.exported <;> simp
      exact ⟨.cons d (.ptrV (.structV zz) (.box (.uintV w u0))) rest1, by simp [processStruct, hex2, h2]⟩
  | parent, .cons d (.ptrV (.structV zz) (.box (.boolV b0))) rest => by
    obtain ⟨rest1, h2⟩ := processStruct_empty_env_ok pre parent rest
    by_cases hex : d.exported = true
    · exact ⟨.cons d (.ptrV (.structV zz) (.box (.boolV b0))) rest1, by simp [processStruct, hex, h2]⟩
    · have hex2 : d.exported = false := by revert hex; cases d.exported <;> simp
      exact ⟨.cons d (.ptrV (.structV zz) (.box (.boolV b0))) rest1, by simp [processStruct, hex2, h2]⟩
  | parent, .cons d (.ptrV (.structV zz) (.box (.strSliceV xs))) rest => by
    obtain ⟨rest1, h2⟩ := processStruct_empty_env_ok pre parent rest
    by_cases hex : d.exported = true
    · exact ⟨.cons d (.ptrV (.structV zz) (.box (.strSliceV xs))) rest1, by simp [processStruct, hex, h2]⟩
    · have hex2 : d.exported = false := by revert hex; cases d.exported <;> simp
      exact ⟨.cons d (.ptrV (.structV zz) (.box (.strSliceV xs))) rest1, by simp [processStruct, hex2, h2]⟩
  | parent, .cons d (.ptrV (.structV zz) (.box (.ptrV p1 p2))) rest => by
    obtain ⟨rest1, h2⟩ := processStruct_empty_env_ok pre parent rest
    by_cases hex : d.exported = true
    · exact ⟨.cons d (.ptrV (.structV zz) (.box (.ptrV p1 p2))) rest1, by simp [processStruct, hex, h2]⟩
    · have hex2 : d.exported = false := by revert hex; cases d.exported <;> simp
      exact ⟨.cons d (.ptrV (.structV zz) (.box (.ptrV p1 p2))) rest1, by simp [processStruct, hex2, h2]⟩
  | parent, .cons d (.ptrV (.strV s0) po) rest => by
    obtain ⟨rest1, h2⟩ := processStruct_empty_env_ok pre parent rest
    by_cases hex : d.exported = true
    · exact ⟨.cons d (.ptrV (.strV s0) po) rest1, by cases po <;> simp [processStruct, hex, h2]⟩
    · have hex2 : d.exported = false := by revert hex; cases d.exported <;> simp
      exact ⟨.cons d (.ptrV (.strV s0) po) rest1, by cases po <;> simp [processStruct, hex2, h2]⟩
  | parent, .cons d (.ptrV (.intV w i0) po) rest => by
    obtain ⟨rest1, h2⟩ := processStruct_empty_env_ok pre parent rest
    by_cases hex : d.exported = true
    · exact ⟨.cons d (.ptrV (.intV w i0) po) rest1, by cases po <;> simp [processStruct, hex, h2]⟩
    · have hex2 : d.exported = false := by revert hex; cases d.exported <;> simp
      exact ⟨.cons d (.ptrV (.intV w i0) po) rest1, by cases po <;> simp [processStruct, hex2, h2]⟩
  | parent, .cons d (.ptrV (.uintV w u0) po) rest => by
    obtain ⟨rest1, h2⟩ := processStruct_empty_env_ok pre parent rest
    by_cases hex : d.exported = true
    · exact ⟨.cons d (.ptrV (.uintV w u0) po) rest1, by cases po <;> simp [processStruct, hex, h2]⟩
    · have hex2 : d.exported = false := by revert hex; cases d.exported <;> simp
      exact ⟨.cons d (.ptrV (.uintV w u0) po) rest1, by cases po <;> simp [processStruct, hex2, h2]⟩
  | parent, .cons d (.ptrV (.boolV b0) po) rest => by
    obtain ⟨rest1, h2⟩ := processStruct_empty_env_ok pre parent rest
    by_cases hex : d.exported = true
    · exact ⟨.cons d (.ptrV (.boolV b0) po) rest1, by cases po <;> simp [processStruct, hex, h2]⟩
    · have hex2 : d.exported = false := by revert hex; cases d.exported <;> simp
      exact ⟨.cons d (.ptrV (.boolV b0) po) rest1, by cases po <;> simp [processStruct, hex2, h2]⟩
  | parent, .cons d (.ptrV (.strSliceV xs) po) rest => by
    obtain ⟨rest1, h2⟩ := processStruct_empty_env_ok pre parent rest
    by_cases hex : d.exported = true
    · exact ⟨.cons d (.ptrV (.strSliceV xs) po) rest1, by cases po <;> simp [processStruct, hex, h2]⟩
    · have hex2 : d.exported = false := by revert hex; cases d.exported <;> simp
      exact ⟨.cons d (.ptrV (.strSliceV xs) po) rest1, by cases po <;> simp [processStruct, hex2, h2]⟩
  | parent, .cons d (.ptrV (.ptrV p1 p2) po) rest => by
    obtain ⟨rest1, h2⟩ := processStruct_empty_env_ok pre parent rest
    by_cases hex : d.exported = true
    · exact ⟨.cons d (.ptrV (.ptrV p1 p2) po) rest1, by cases po <;> simp [processStruct, hex, h2]⟩
    · have hex2 : d.exported = false := by revert hex; cases d.exported <;> simp
      exact ⟨.cons d (.ptrV (.ptrV p1 p2) po) rest1, by cases po <;> simp [processStruct, hex2, h2]⟩
  | parent, .cons d (.strV s0) rest => by
    obtain ⟨rest1, h2⟩ := processStruct_empty_env_ok pre parent rest
    by_cases hex : d.exported = true
    · exact ⟨.cons d (.strV s0) rest1, by simp [processStruct, hex, h2]⟩
    · have hex2 : d.exported = false := by revert hex; cases d.exported <;> simp
      exact ⟨.cons d (.strV s0) rest1, by simp [processStruct, hex2, h2]⟩
  | parent, .cons d (.intV w i0) rest => by
    obtain ⟨rest1, h2⟩ := processStruct_empty_env_ok pre parent rest
    by_cases hex : d.exported = true
    · exact ⟨.cons d (.intV w i0) rest1, by simp [processStruct, hex, h2]⟩
    · have hex2 : d.exported = false := by revert hex; cases d.exported <;> simp
      exact ⟨.cons d (.intV w i0) rest1, by simp [processStruct, hex2, h2]⟩
  | parent, .cons d (.uintV w u0) rest => by
    obtain ⟨rest1, h2⟩ := processStruct_empty_env_ok pre parent rest
    by_cases hex : d.exported = true
    · exact ⟨.cons d (.uintV w u0) rest1, by simp [processStruct, hex, h2]⟩
    · have hex2 : d.exported = false := by revert hex; cases d.exported <;> simp
      exact ⟨.cons d (.uintV w u0) rest1, by simp [processStruct, hex2, h2]⟩
  | parent, .cons d (.boolV b0) rest => by
    obtain ⟨rest1, h2⟩ := processStruct_empty_env_ok pre parent rest
    by_cases hex : d.exported = true
    · exact ⟨.cons d (.boolV b0) rest1, by simp [processStruct, hex, h2]⟩
    · have hex2 : d.exported = false := by revert hex; cases d.exported <;> simp
      exact ⟨.cons d (.boolV b0) rest1, by simp [processStruct, hex2, h2]⟩
  | parent, .cons d (.strSliceV xs) rest => by
    obtain ⟨rest1, h2⟩ := processStruct_empty_env_ok pre parent rest
    by_cases hex : d.exported = true
    · exact ⟨.cons d (.strSliceV xs) rest1, by simp [processStruct, hex, h2]⟩
    · have hex2 : d.exported = false := by revert hex; cases d.exported <;> simp
      exact ⟨.cons d (.strSliceV xs) rest1, by simp [processStruct, hex2, h2]⟩

/-- C9: the environment walk materializes every exported nil
pointer-to-struct field it reaches, unconditionally: even with no
environment variable set the walk succeeds, and after any
successful walk no exported pointer-to-struct position in the
result is nil. -/
theorem c9_env_materializes :
    (∀ (pre parent : String) (fs : Fields),
        ∃ fs', processStruct (fun _ => "") pre parent fs = .ok fs'
          ∧ Fields.noNilStructPtr fs' = true)
      ∧ (∀ (env : String → String) (pre parent : String) (fs fs' : Fields),
          processStruct env pre parent fs = .ok fs' →
          Fields.noNilStructPtr fs' = true) := by
  constructor
  · intro pre parent fs
    obtain ⟨fs', h⟩ := processStruct_empty_env_ok pre parent fs
    exact ⟨fs', h, processStruct_ok_noNil _ pre parent fs fs' h⟩
  · intro env pre parent fs fs' h
    exact processStruct_ok_noNil env pre parent fs fs' h

/-- C9 witness: with no environment variable set, loading the record
whose `Sub` pointer is nil produces the record with `Sub` pointing
at a freshly allocated zero sub-record, and the result has no nil
struct pointer left. -/
theorem c9_env_materializes_witness :
    Fields.noNilStructPtr (.cons dSub (.ptrV subZero (.box subZero)) .nil) = true :=
  c9_env_materializes.2 (fun _ => "") "APP" "" nilSubFields
    (.cons dSub (.ptrV subZero (.box subZero)) .nil) rfl

end Configurator
